import Mathlib

/-!
# SDL dynamic API (src/dynapi/SDL_dynapi.c)

A shallow embedding of the jump-table bootstrap of `SDL_dynapi.c`, for the
build in which `SDL_DYNAMIC_API` is enabled and `ENABLE_SDL_CALL_LOGGING`
is 0 (as the file defines it).

The list of functions comes from `SDL_dynapi_procs.h`, which is expanded by
`SDL_DYNAPI_PROC`; the model takes what that header and the target ABI fix
as a parameter (`Build`): slot `i` is the `i`-th `SDL_DYNAPI_PROC` entry.

Memory is modelled at byte granularity.  The static object `jump_table` is a
region of `sizeof(jump_table)` bytes; a region is a function from byte
offsets to byte values.
-/

namespace SDLDynapi

/-! ## Part 1: definitions -/

/-- `#define SDL_DYNAPI_VERSION 2`. -/
def SDL_DYNAPI_VERSION : Nat := 2

/-- `#define SDL_DYNAMIC_API_ENVVAR "SDL3_DYNAMIC_API"`. -/
def SDL_DYNAMIC_API_ENVVAR : String := "SDL3_DYNAMIC_API"

/-- The character `,` as a C `char`. -/
def COMMA : Nat := 44

/-- The character `\0` as a C `char`. -/
def NUL : Nat := 0

/-- What `SDL_dynapi_procs.h` and the target ABI fix for one build of the
library: the number of `SDL_DYNAPI_PROC` entries, the size in bytes of a
function pointer, the byte order in which a pointer is stored, and for the
`i`-th entry `fn` the addresses of `fn##_REAL` and of `fn##_DEFAULT`. -/
structure Build where
  nprocs : Nat
  ptrsize : Nat
  big_endian : Bool
  REAL : Nat → Nat
  DEFAULT : Nat → Nat

/-- A region of memory: the byte stored at each offset from its start. -/
abbrev Bytes := Nat → Nat

/-- The `n` low bytes of the number `p`, least significant first. -/
def le_bytes : Nat → Nat → List Nat
  | 0, _ => []
  | n + 1, p => (p % 256) :: le_bytes n (p / 256)

/-- The number whose bytes, least significant first, are the list. -/
def le_value : List Nat → Nat
  | [] => 0
  | b :: bs => b + 256 * le_value bs

/-- The object representation of the pointer `p` in `B.ptrsize` bytes. -/
def ptr_bytes (B : Build) (p : Nat) : List Nat :=
  if B.big_endian then (le_bytes B.ptrsize p).reverse else le_bytes B.ptrsize p

/-- The pointer whose object representation is the list of bytes. -/
def ptr_value (B : Build) (l : List Nat) : Nat :=
  if B.big_endian then le_value l.reverse else le_value l

/-- Store the bytes `l` at offset `off` of the region `m`. -/
def store (m : Bytes) (off : Nat) (l : List Nat) : Bytes :=
  fun o => if off ≤ o ∧ o < off + l.length then l.getD (o - off) 0 else m o

/-- The `n` bytes of the region `m` from offset `off`. -/
def load (m : Bytes) (off n : Nat) : List Nat :=
  (List.range n).map (fun k => m (off + k))

/-- `sizeof(jump_table)`: the struct has one function pointer per
`SDL_DYNAPI_PROC` entry and nothing else. -/
def sizeof_jump_table (B : Build) : Nat := B.nprocs * B.ptrsize

/-- Reading the member `jump_table.fn` of the `i`-th entry `fn`. -/
def slot (B : Build) (jt : Bytes) (i : Nat) : Nat :=
  ptr_value B (load jt (i * B.ptrsize) B.ptrsize)

/-- The assignment `jump_table.fn = p;` for the `i`-th entry `fn`. -/
def set_slot (B : Build) (jt : Bytes) (i : Nat) (p : Nat) : Bytes :=
  store jt (i * B.ptrsize) (ptr_bytes B p)

/-- The static initialiser of `jump_table`: `fn##_DEFAULT,` for every entry
(lines 229-233).  Bytes outside the object are not part of it and read 0. -/
def initial_jump_table (B : Build) : Bytes :=
  (List.range B.nprocs).foldl (fun t i => set_slot B t i (B.DEFAULT i)) (fun _ => 0)

/-- The expansion of `#define SDL_DYNAPI_PROC(rc, fn, params, args, ret)
jump_table.fn = fn##_REAL;` over `SDL_dynapi_procs.h` (lines 419-421): one
assignment per entry, in declaration order. -/
def populate (B : Build) (jt : Bytes) : Bytes :=
  (List.range B.nprocs).foldl (fun t i => set_slot B t i (B.REAL i)) jt

/-- Modelled from the spec: `SDL_memcpy_REAL`, reached through
`jump_table.SDL_memcpy`, is not in this file; the spec calls it a raw bytewise
copy.  `SDL_memcpy dst src n` is region `dst` after `n` bytes of region `src`
have been copied to its start. -/
def SDL_memcpy (dst src : Bytes) (n : Nat) : Bytes :=
  fun o => if o < n then src o else dst o

/-- What the argument `table` of `initialize_jumptable` points to: the
internal table itself (`table == &jump_table`), or a buffer of the caller,
given by its contents from `table` onwards.  `jump_table` is a `static`
object of this file, so a caller outside it has no pointer into it other
than the `&jump_table` this file hands out; and `memcpy` is only defined
for regions that do not overlap. -/
inductive Table where
  | internal : Table
  | external (buf : Bytes) : Table

/-- `initialize_jumptable(apiver, table, tablesize)` (lines 392-432) run on
the internal table `jt`.  Returns the `Sint32` result, the internal table
and the destination afterwards. -/
def initialize_jumptable (B : Build) (jt : Bytes) (apiver : Nat) (table : Table)
    (tablesize : Nat) : Int × Bytes × Table :=
  if apiver ≠ SDL_DYNAPI_VERSION then
    (-1, jt, table) -- not compatible.
  else if tablesize > sizeof_jump_table B then
    (-1, jt, table) -- newer version of SDL with functions we can't provide.
  else
    -- Init our jump table first.
    let jt1 := populate B jt
    -- Then the external table...  (the test is `output_jump_table != &jump_table`)
    match table with
    | .external buf => (0, jt1, .external (SDL_memcpy buf jt1 tablesize))
    | .internal => (0, jt1, .internal)

/-- `SDL_DYNAPI_entry(apiver, table, tablesize)` (lines 439-442). -/
def SDL_DYNAPI_entry (B : Build) (jt : Bytes) (apiver : Nat) (table : Table)
    (tablesize : Nat) : Int × Bytes × Table :=
  initialize_jumptable B jt apiver table tablesize

/-! ### The bootstrap: override resolution and the one-time guard -/

/-- A resolved `SDL_DYNAPI_ENTRYFN` of an override module.  It is called as
`entry(apiver, &jump_table, tablesize)`: given `apiver`, the contents of the
table it is pointed at and `tablesize`, it returns its `Sint32` result and
the contents it leaves in that table. -/
abbrev ENTRYFN := Nat → Bytes → Nat → Int × Bytes

/-- The platform primitive `get_sdlapi_entry(fname, sym)`: `none` is the
`NULL` result (the module was not loaded or has no such symbol). -/
abbrev Loader := List Nat → String → Option ENTRYFN

/-- The calls that are observed, in the order made; `call i p` is the
indirect call `jump_table.fn(...)` for the entry `i`, the slot holding the
address `p`. -/
inductive Event where
  | init_locked : Event
  | get_sdlapi_entry (fname : List Nat) (sym : String) : Event
  | dynapi_warn (msg : String) : Event
  | entry (apiver tablesize : Nat) : Event
  | initialize_jumptable (apiver tablesize : Nat) : Event
  | SDL_ExitProcess (exitcode : Nat) : Event
  | call (entry addr : Nat) : Event
  deriving DecidableEq, Repr

/-- Whether the event is a call of `dynapi_warn`. -/
def Event.is_warn : Event → Bool
  | .dynapi_warn _ => true
  | _ => false

/-- Whether the event is a call of `initialize_jumptable`. -/
def Event.is_initialize_jumptable : Event → Bool
  | .initialize_jumptable _ _ => true
  | _ => false

/-- Whether the event is an execution of `SDL_InitDynamicAPILocked`. -/
def Event.is_init_locked : Event → Bool
  | .init_locked => true
  | _ => false

/-- The file names passed to `get_sdlapi_entry`, in order. -/
def loaded_names : List Event → List (List Nat)
  | [] => []
  | .get_sdlapi_entry fname _ :: es => fname :: loaded_names es
  | _ :: es => loaded_names es

/-- The process-wide state this file owns or reads: the static `jump_table`,
the memory `getenv("SDL3_DYNAMIC_API")` points to (`none` for `NULL`,
otherwise the bytes of the string with its terminating NUL), the statics
`already_initialized` and `lock` of `SDL_InitDynamicAPI`, whether
`SDL_ExitProcess` has ended the process, and the calls made so far. -/
structure State where
  jump_table : Bytes
  environ : Option (List Nat)
  already_initialized : Bool
  lock : Nat
  exited : Option Nat
  trace : List Event

/-- The state at process start, for a given environment. -/
def initial_state (B : Build) (env : Option (List Nat)) : State :=
  { jump_table := initial_jump_table B, environ := env, already_initialized := false,
    lock := 0, exited := none, trace := [] }

/-- `dynapi_warn(msg)` (lines 485-496): what it shows depends on the
platform; the model records the call. -/
def dynapi_warn (msg : String) (s : State) : State :=
  { s with trace := s.trace ++ [Event.dynapi_warn msg] }

/-- The message of line 545. -/
def MSG_LOAD : String :=
  "Couldn't load an overriding SDL library. Please fix or remove the SDL3_DYNAMIC_API environment variable. Using the default SDL."

/-- The message of line 552. -/
def MSG_OVERRIDE : String :=
  "Couldn't override SDL library. Using a newer SDL build might help. Please fix or remove the SDL3_DYNAMIC_API environment variable. Using the default SDL."

/-- The message of line 563. -/
def MSG_INTERNAL : String :=
  "Failed to initialize internal SDL dynapi. As this would otherwise crash, we have to abort now."

/-- The read `*p` of the char at index `p` of the environment string. -/
def rd (buf : List Nat) (p : Nat) : Nat := buf.getD p NUL

/-- The C string that starts at index `p` of `buf`: the bytes before the
first NUL. -/
def c_string (buf : List Nat) (p : Nat) : List Nat :=
  (buf.drop p).takeWhile (fun c => c != NUL)

/-- The inner `while (true)` of lines 531-542 up to its test succeeding:
`ptr` advances over the bytes from `ptr` on (`rest`) to the first `,` or NUL. -/
def find_sep : List Nat → Nat → Nat
  | [], ptr => ptr
  | ch :: rest, ptr => if ch = COMMA ∨ ch = NUL then ptr else find_sep rest (ptr + 1)

/-- The variables of the candidate scan (lines 527-543): the environment
string, `libname` as an index into it, `entry`, and the file names passed to
`get_sdlapi_entry` so far. -/
structure Scan where
  buf : List Nat
  libname : Nat
  entry : Option ENTRYFN
  calls : List (List Nat)

/-- One pass of the body of `while (*libname && !entry)` (lines 529-542). -/
def scan_step (ld : Loader) (st : Scan) : Scan :=
  let ptr := find_sep (st.buf.drop st.libname) st.libname
  let ch := rd st.buf ptr
  let buf1 := st.buf.set ptr NUL                       -- *ptr = '\0';
  let fname := c_string buf1 st.libname
  let entry := ld fname "SDL_DYNAPI_entry"
  let buf2 := buf1.set ptr ch                          -- *ptr = ch;
  { buf := buf2, libname := if ch = NUL then ptr else ptr + 1, entry := entry,
    calls := st.calls ++ [fname] }

/-- The loop `while (*libname && !entry)` (lines 528-543), run for at most
`fuel` passes. -/
def scan_loop (ld : Loader) : Nat → Scan → Scan
  | 0, st => st
  | fuel + 1, st =>
    if rd st.buf st.libname ≠ NUL ∧ st.entry.isNone then scan_loop ld fuel (scan_step ld st)
    else st

/-- The candidate scan on the string `buf`: every pass that does not end the
loop moves `libname` forward, so `buf.length` passes are enough. -/
def scan (ld : Loader) (buf : List Nat) : Scan :=
  scan_loop ld buf.length { buf := buf, libname := 0, entry := none, calls := [] }

/-- Lines 521-548 of `SDL_InitDynamicAPILocked`, on the `getenv` branch of
line 521: `libname = getenv(...)`, the candidate scan, and the warning when
no entry point was resolved.  Returns `entry`. -/
def find_entry (ld : Loader) (s : State) : Option ENTRYFN × State :=
  match s.environ with
  | none => (none, s)
  | some buf =>
    let r := scan ld buf
    let s1 := { s with environ := some r.buf,
                       trace := s.trace ++ r.calls.map (fun n => Event.get_sdlapi_entry n "SDL_DYNAPI_entry") }
    match r.entry with
    | none => (none, dynapi_warn MSG_LOAD s1)
    | some e => (some e, s1)

/-- Lines 550-557: the call of a resolved `entry`.  Returns `use_internal`. -/
def call_entry (B : Build) (entry : Option ENTRYFN) (s : State) : Bool × State :=
  match entry with
  | none => (true, s)
  | some e =>
    let r := e SDL_DYNAPI_VERSION s.jump_table (sizeof_jump_table B % 2 ^ 32)
    let s1 := { s with jump_table := r.2,
                       trace := s.trace ++ [Event.entry SDL_DYNAPI_VERSION (sizeof_jump_table B % 2 ^ 32)] }
    if r.1 < 0 then (true, dynapi_warn MSG_OVERRIDE s1)
    else (false, s1) -- We overrode SDL! Don't use the internal version!

/-- `SDL_InitDynamicAPILocked()` (lines 512-572).  The third argument of the
two calls is `sizeof(jump_table)` converted to `Uint32`.  On the fatal branch
the process ends (`SDL_TriggerBreakpoint`, then `SDL_ExitProcess(86)`). -/
def SDL_InitDynamicAPILocked (B : Build) (ld : Loader) (s : State) : State :=
  let s0 := { s with trace := s.trace ++ [Event.init_locked] }
  let (entry, s1) := find_entry ld s0
  let (use_internal, s2) := call_entry B entry s1
  -- Just fill in the function pointers from this library.
  if use_internal then
    let r := initialize_jumptable B s2.jump_table SDL_DYNAPI_VERSION Table.internal
      (sizeof_jump_table B % 2 ^ 32)
    let s3 := { s2 with jump_table := r.2.1,
                        trace := s2.trace ++ [Event.initialize_jumptable SDL_DYNAPI_VERSION
                          (sizeof_jump_table B % 2 ^ 32)] }
    if r.1 < 0 then
      -- Now we're screwed. Should definitely abort now.
      let s4 := dynapi_warn MSG_INTERNAL s3
      { s4 with exited := some 86, trace := s4.trace ++ [Event.SDL_ExitProcess 86] }
    else s3
  else s2

/-- `SDL_InitDynamicAPI()` (lines 574-598), one call run to its end with no
other thread running.  Modelled from the spec: `SDL_LockSpinlock_REAL` and
`SDL_UnlockSpinlock_REAL` are not in this file; the lock is a spin-based
mutual-exclusion primitive, so taking it when it is held never returns
(`none`), and otherwise holds it (1) until it is released (0).  Nothing runs
in a process that `SDL_ExitProcess` has ended. -/
def SDL_InitDynamicAPI (B : Build) (ld : Loader) (s : State) : Option State :=
  match s.exited with
  | some _ => some s
  | none =>
    if s.lock ≠ 0 then none
    else
      let s1 := { s with lock := 1 }
      if !s1.already_initialized then
        let s2 := SDL_InitDynamicAPILocked B ld s1
        match s2.exited with
        | some _ => some s2
        | none => some { s2 with already_initialized := true, lock := 0 }
      else some { s1 with lock := 0 }

/-- A sequence of `n` calls of `SDL_InitDynamicAPI`, one after the other. -/
def init_calls (B : Build) (ld : Loader) : Nat → State → Option State
  | 0, s => some s
  | n + 1, s => (SDL_InitDynamicAPI B ld s).bind (init_calls B ld n)

/-- How many times `SDL_InitDynamicAPILocked` has been executed. -/
def locked_runs (s : State) : Nat := (s.trace.filter Event.is_init_locked).length

/-! ### The candidate list, as the specification words it -/

/-- The comma-separated candidates of the value of the override variable:
its segments between commas, an empty segment after a final comma (and the
one segment of the empty value) not being a candidate. -/
def candidates (value : List Nat) : List (List Nat) :=
  let segs := value.splitOn COMMA
  if segs.getLast? = some [] then segs.dropLast else segs

/-- The candidates tried when they are taken in order until one resolves
its `SDL_DYNAPI_entry` symbol or the list is exhausted. -/
def tried (ld : Loader) : List (List Nat) → List (List Nat)
  | [] => []
  | c :: cs => if (ld c "SDL_DYNAPI_entry").isSome then [c] else c :: tried ld cs

/-- The entry point of the first candidate, in order, that resolves. -/
def first_resolved (ld : Loader) (cs : List (List Nat)) : Option ENTRYFN :=
  cs.findSome? (fun c => ld c "SDL_DYNAPI_entry")

/-! ### Further observations on the trace -/

/-- Whether the event belongs to the fatal branch of lines 562-567: the
warning of line 563 or the call of `SDL_ExitProcess`. -/
def Event.is_fatal : Event → Bool
  | .SDL_ExitProcess _ => true
  | .dynapi_warn msg => msg == MSG_INTERNAL
  | _ => false

/-- Whether the event is a call of `get_sdlapi_entry`. -/
def Event.is_get_sdlapi_entry : Event → Bool
  | .get_sdlapi_entry _ _ => true
  | _ => false

/-- Whether the event is an indirect call through a slot of the jump table. -/
def Event.is_call : Event → Bool
  | .call _ _ => true
  | _ => false

/-- Whether the loop condition `*libname && !entry` of line 528 holds. -/
def scan_continues (st : Scan) : Bool :=
  rd st.buf st.libname != NUL && st.entry.isNone

/-! ### The stubs (lines 235-257) -/

/-- The entry whose bootstrap stub `fn##_DEFAULT` is the function at address
`p`, if there is one. -/
def stub_at (B : Build) (p : Nat) : Option Nat :=
  (List.range B.nprocs).find? (fun j => B.DEFAULT j = p)

/-- The body of a bootstrap stub `fn##_DEFAULT` (lines 237-241), for the
entry `j`: `SDL_InitDynamicAPI();` and then `ret jump_table.fn args;`, the
indirect call being `call`.  `none`: the stub does not return. -/
def stub_body {α β : Type} (B : Build) (ld : Loader)
    (call : Nat → α → State → Option (β × State)) (j : Nat) (args : α) (s : State) :
    Option (β × State) :=
  match SDL_InitDynamicAPI B ld s with
  | none => none
  | some s1 =>
    match s1.exited with
    | some _ => none
    | none => call j args s1

/-- The indirect call `jump_table.fn args` for the entry `i` (lines 240 and
252).  The function at the address found in the slot is run: the body of the
bootstrap stub when it is the address of one, and otherwise a function
outside this file, which returns `impl p args` and has no access to the
statics of this file.  `fuel` bounds the nesting of stubs; `none`: the call
does not return within it. -/
def jump {α β : Type} (B : Build) (ld : Loader) (impl : Nat → α → β) :
    Nat → Nat → α → State → Option (β × State)
  | 0, _, _, _ => none
  | fuel + 1, i, args, s =>
    let p := slot B s.jump_table i
    let s1 := { s with trace := s.trace ++ [Event.call i p] }
    match stub_at B p with
    | none => some (impl p args, s1)
    | some j => stub_body B ld (jump B ld impl fuel) j args s1

/-- The bootstrap stub `fn##_DEFAULT(args)` of the entry `j` (lines 236-241). -/
def DEFAULT_stub {α β : Type} (B : Build) (ld : Loader) (impl : Nat → α → β)
    (fuel : Nat) (j : Nat) (args : α) (s : State) : Option (β × State) :=
  stub_body B ld (jump B ld impl fuel) j args s

/-- The public forwarding stub `fn(args)` of the entry `i` (lines 249-253):
`ret jump_table.fn args;` and nothing else. -/
def forwarding_stub {α β : Type} (B : Build) (ld : Loader) (impl : Nat → α → β)
    (fuel : Nat) (i : Nat) (args : α) (s : State) : Option (β × State) :=
  jump B ld impl fuel i args s

/-! ### The variadic wrappers (lines 88-111 and 162-185) -/

/-- The values of the local `str`: the address of the stack array `buf`,
`NULL`, or the address of a heap block. -/
inductive StrPtr where
  | buf : StrPtr
  | null : StrPtr
  | heap (a : Nat) : StrPtr
  deriving DecidableEq, Repr

/-- The calls through the jump table that a wrapper makes. -/
inductive VCall where
  | SDL_vsnprintf (maxlen : Nat) : VCall
  | SDL_vasprintf : VCall
  | SDL_SetError (str : StrPtr) : VCall
  | SDL_RenderDebugTextFormat (str : StrPtr) : VCall
  | SDL_free (str : StrPtr) : VCall
  deriving DecidableEq, Repr

/-- What the functions in the table do for the format and arguments of one
call of a wrapper: the result of `SDL_vsnprintf(buf, sizeof(buf), fmt, ap)`;
the result of `SDL_vasprintf(&str, fmt, ap)` and what it leaves in `str`,
which was `NULL` before the call (`none`: `NULL`, `some a`: the block it
allocated); and the result of the table's `SDL_RenderDebugTextFormat`. -/
structure Formatter where
  vsnprintf : Int
  vasprintf : Int
  vasprintf_str : Option Nat
  render : Bool

/-- The pointer `SDL_vasprintf` leaves in `str`. -/
def Formatter.str (F : Formatter) : StrPtr :=
  match F.vasprintf_str with
  | none => StrPtr.null
  | some a => StrPtr.heap a

/-- The wrapper `SDL_SetError##name(fmt, ...)` (lines 89-111), after
`initcall`.  Returns its result and the calls it made, in order. -/
def SDL_SetError (F : Formatter) : Bool × List VCall :=
  -- char buf[128], *str = buf;
  let str := StrPtr.buf
  let result := F.vsnprintf
  let calls := [VCall.SDL_vsnprintf 128]
  let (str, result, calls) :=
    if result ≥ 0 ∧ result.toNat ≥ 128 then
      (F.str, F.vasprintf, calls ++ [VCall.SDL_vasprintf])
    else (str, result, calls)
  let calls := if result ≥ 0 then calls ++ [VCall.SDL_SetError str] else calls
  let calls := if str ≠ StrPtr.buf then calls ++ [VCall.SDL_free str] else calls
  (false, calls)

/-- The wrapper `SDL_RenderDebugTextFormat##name(renderer, x, y, fmt, ...)`
(lines 162-185), after `initcall`; `renderer`, `x` and `y` are only passed
on.  Returns its result and the calls it made, in order. -/
def SDL_RenderDebugTextFormat (F : Formatter) : Bool × List VCall :=
  -- char buf[128], *str = buf;
  let str := StrPtr.buf
  let result := F.vsnprintf
  let calls := [VCall.SDL_vsnprintf 128]
  let (str, result, calls) :=
    if result ≥ 0 ∧ result.toNat ≥ 128 then
      (F.str, F.vasprintf, calls ++ [VCall.SDL_vasprintf])
    else (str, result, calls)
  let retval := false
  let (retval, calls) :=
    if result ≥ 0 then (F.render, calls ++ [VCall.SDL_RenderDebugTextFormat str])
    else (retval, calls)
  let calls := if str ≠ StrPtr.buf then calls ++ [VCall.SDL_free str] else calls
  (retval, calls)

/-- The calls of `SDL_free` among the calls of a wrapper. -/
def freed : List VCall → List StrPtr
  | [] => []
  | .SDL_free p :: cs => p :: freed cs
  | _ :: cs => freed cs

/-! ### Concrete inputs on which the model is evaluated -/

/-- A small build: two entries, two-byte little-endian pointers. -/
def example_build : Build :=
  { nprocs := 2, ptrsize := 2, big_endian := false,
    REAL := fun i => 4096 + i, DEFAULT := fun i => 8192 + i }

/-- An override entry point that accepts and fills the table it is given
with its own pointers `0x0201` and `0x0403`. -/
def entry_good : ENTRYFN := fun _ jt _ => (0, store jt 0 [1, 2, 3, 4])

/-- An override entry point that scribbles on the table and then reports
that it is not compatible. -/
def entry_bad : ENTRYFN := fun _ jt _ => (-1, store jt 0 [9, 9, 9, 9])

/-- An override entry point that reports success and fills the table it is
given with the non-null pointers `0x2000` and `0x2001`, which are the
addresses of the bootstrap stubs of `example_build`. -/
def entry_stubs : ENTRYFN := fun _ jt _ => (0, store jt 0 [0, 32, 1, 32])

/-- A loader for which the module `a` resolves to `entry_bad`, the module
`b` to `entry_good`, the module `s` to `entry_stubs`, and no other module
can be loaded. -/
def example_loader : Loader := fun fname _ =>
  if fname = [97] then some entry_bad
  else if fname = [98] then some entry_good
  else if fname = [115] then some entry_stubs
  else none

/-- A caller's buffer in which every byte is `0xAA`. -/
def example_buffer : Bytes := fun _ => 170

/-- A call of a wrapper whose text needs 200 bytes and for which
`SDL_vasprintf` fails, leaving `NULL` in `str`. -/
def example_formatter : Formatter :=
  { vsnprintf := 200, vasprintf := -1, vasprintf_str := none, render := true }

/-- Functions outside this file, for `example_build`: the one at address `p`
returns `1000 * p + args`. -/
def example_impl : Nat → Nat → Nat := fun p args => 1000 * p + args

/-! ## Part 2: lemmas and theorems -/

theorem le_bytes_length (n p : Nat) : (le_bytes n p).length = n := by
  induction n generalizing p with
  | zero => rfl
  | succ n ih => simp [le_bytes, ih]

theorem le_value_le_bytes (n p : Nat) : le_value (le_bytes n p) = p % 256 ^ n := by
  induction n generalizing p with
  | zero => simp [le_bytes, le_value, Nat.mod_one]
  | succ n ih =>
    simp only [le_bytes, le_value, ih]
    rw [pow_succ', Nat.mod_mul]

theorem ptr_bytes_length (B : Build) (p : Nat) : (ptr_bytes B p).length = B.ptrsize := by
  unfold ptr_bytes
  split <;> simp [le_bytes_length]

theorem ptr_value_ptr_bytes (B : Build) (p : Nat) (h : p < 256 ^ B.ptrsize) :
    ptr_value B (ptr_bytes B p) = p := by
  unfold ptr_value ptr_bytes
  split <;> simp [le_value_le_bytes, Nat.mod_eq_of_lt h]

theorem load_congr (m m' : Bytes) (off n : Nat) (h : ∀ k, k < n → m (off + k) = m' (off + k)) :
    load m off n = load m' off n := by
  unfold load
  apply List.map_congr_left
  intro k hk
  exact h k (List.mem_range.mp hk)

theorem load_store_same (m : Bytes) (off : Nat) (l : List Nat) :
    load (store m off l) off l.length = l := by
  apply List.ext_getElem
  · simp [load]
  · intro k h1 h2
    simp only [load, List.getElem_map, List.getElem_range, store]
    have : off ≤ off + k ∧ off + k < off + l.length := ⟨by omega, by omega⟩
    rw [if_pos this]
    simp [List.getD_eq_getElem?_getD, List.getElem?_eq_getElem h2]

theorem slot_set_slot_same (B : Build) (jt : Bytes) (i p : Nat) (h : p < 256 ^ B.ptrsize) :
    slot B (set_slot B jt i p) i = p := by
  unfold slot set_slot
  have := load_store_same jt (i * B.ptrsize) (ptr_bytes B p)
  rw [ptr_bytes_length] at this
  rw [this, ptr_value_ptr_bytes B p h]

theorem slot_set_slot_other (B : Build) (jt : Bytes) (i j p : Nat) (h : i ≠ j) :
    slot B (set_slot B jt j p) i = slot B jt i := by
  unfold slot set_slot
  congr 1
  apply load_congr
  intro k hk
  simp only [store, ptr_bytes_length]
  rw [if_neg]
  intro ⟨h1, h2⟩
  rcases Nat.lt_or_gt_of_ne h with hlt | hgt
  · have : (i + 1) * B.ptrsize ≤ j * B.ptrsize := Nat.mul_le_mul_right _ hlt
    rw [Nat.add_mul] at this
    omega
  · have : (j + 1) * B.ptrsize ≤ i * B.ptrsize := Nat.mul_le_mul_right _ hgt
    rw [Nat.add_mul] at this
    omega

/-- After the first `n` assignments `jump_table.fn = f(fn)`, each of the
first `n` slots holds its value. -/
theorem slot_fill (B : Build) (f : Nat → Nat) (n : Nat) (jt : Bytes)
    (hf : ∀ i, i < n → f i < 256 ^ B.ptrsize) (i : Nat) (hi : i < n) :
    slot B ((List.range n).foldl (fun t i => set_slot B t i (f i)) jt) i = f i := by
  induction n with
  | zero => omega
  | succ n ih =>
    rw [List.range_succ, List.foldl_append]
    simp only [List.foldl_cons, List.foldl_nil]
    by_cases h : i = n
    · subst h
      exact slot_set_slot_same B _ _ _ (hf _ hi)
    · rw [slot_set_slot_other B _ _ _ _ h]
      exact ih (fun k hk => hf k (by omega)) (by omega)

theorem slot_populate (B : Build) (jt : Bytes)
    (hwf : ∀ i, i < B.nprocs → B.REAL i < 256 ^ B.ptrsize) (i : Nat) (hi : i < B.nprocs) :
    slot B (populate B jt) i = B.REAL i :=
  slot_fill B B.REAL B.nprocs jt hwf i hi

theorem slot_initial (B : Build)
    (hwf : ∀ i, i < B.nprocs → B.DEFAULT i < 256 ^ B.ptrsize) (i : Nat) (hi : i < B.nprocs) :
    slot B (initial_jump_table B) i = B.DEFAULT i :=
  slot_fill B B.DEFAULT B.nprocs _ hwf i hi

theorem initialize_jumptable_ok (B : Build) (jt : Bytes) (table : Table) (tablesize : Nat)
    (h : tablesize ≤ sizeof_jump_table B) :
    initialize_jumptable B jt SDL_DYNAPI_VERSION table tablesize =
      (0, populate B jt,
        match table with
        | .external buf => .external (SDL_memcpy buf (populate B jt) tablesize)
        | .internal => .internal) := by
  unfold initialize_jumptable
  rw [if_neg (by simp), if_neg (by omega)]
  cases table <;> rfl

theorem initialize_jumptable_internal (B : Build) (jt : Bytes) :
    initialize_jumptable B jt SDL_DYNAPI_VERSION Table.internal (sizeof_jump_table B % 2 ^ 32) =
      (0, populate B jt, Table.internal) := by
  rw [initialize_jumptable_ok B jt _ _ (Nat.mod_le _ _)]

/-! ### `initialize_jumptable` -/

/-- C1 (version gate): for every `apiver` other than `SDL_DYNAPI_VERSION`,
every destination and every `tablesize`, `initialize_jumptable`, and with it
`SDL_DYNAPI_entry`, returns -1, a negative value, and leaves the internal
jump table and the destination buffer as they were. -/
theorem initialize_jumptable_version_gate (B : Build) (jt : Bytes) (apiver : Nat)
    (table : Table) (tablesize : Nat) (h : apiver ≠ SDL_DYNAPI_VERSION) :
    initialize_jumptable B jt apiver table tablesize = (-1, jt, table) ∧
    SDL_DYNAPI_entry B jt apiver table tablesize = (-1, jt, table) ∧
    (SDL_DYNAPI_entry B jt apiver table tablesize).1 < 0 := by
  have h1 : initialize_jumptable B jt apiver table tablesize = (-1, jt, table) := by
    unfold initialize_jumptable
    rw [if_pos h]
  refine ⟨h1, h1, ?_⟩
  unfold SDL_DYNAPI_entry
  rw [h1]
  show (-1 : Int) < 0
  decide

theorem initialize_jumptable_version_gate_witness :
    3 ≠ SDL_DYNAPI_VERSION ∧
    initialize_jumptable example_build (initial_jump_table example_build) 3
      (Table.external example_buffer) 4
      = (-1, initial_jump_table example_build, Table.external example_buffer) :=
  ⟨by decide,
   (initialize_jumptable_version_gate example_build (initial_jump_table example_build) 3
      (Table.external example_buffer) 4 (by decide)).1⟩

/-- C2 (size gate): with `apiver` equal to `SDL_DYNAPI_VERSION`, for every
`tablesize` strictly greater than `sizeof(jump_table)` (so for
`sizeof(jump_table) + 1`), `initialize_jumptable` returns -1, a negative
value, and writes nothing to the internal jump table or to the destination
buffer; a `tablesize` equal to `sizeof(jump_table)` is not rejected. -/
theorem initialize_jumptable_size_gate (B : Build) (jt : Bytes) (table : Table)
    (tablesize : Nat) (h : tablesize > sizeof_jump_table B) :
    initialize_jumptable B jt SDL_DYNAPI_VERSION table tablesize = (-1, jt, table) ∧
    (initialize_jumptable B jt SDL_DYNAPI_VERSION table tablesize).1 < 0 ∧
    initialize_jumptable B jt SDL_DYNAPI_VERSION table (sizeof_jump_table B + 1)
      = (-1, jt, table) ∧
    (initialize_jumptable B jt SDL_DYNAPI_VERSION table (sizeof_jump_table B)).1 = 0 := by
  have gate : ∀ n, n > sizeof_jump_table B →
      initialize_jumptable B jt SDL_DYNAPI_VERSION table n = (-1, jt, table) := by
    intro n hn
    unfold initialize_jumptable
    rw [if_neg (by simp), if_pos hn]
  refine ⟨gate _ h, ?_, gate _ (by omega), ?_⟩
  · rw [gate _ h]
    show (-1 : Int) < 0
    decide
  · rw [initialize_jumptable_ok B jt table _ (le_refl _)]

theorem initialize_jumptable_size_gate_witness :
    5 > sizeof_jump_table example_build ∧
    initialize_jumptable example_build (initial_jump_table example_build) SDL_DYNAPI_VERSION
      (Table.external example_buffer) 5
      = (-1, initial_jump_table example_build, Table.external example_buffer) :=
  ⟨by decide,
   (initialize_jumptable_size_gate example_build (initial_jump_table example_build)
      (Table.external example_buffer) 5 (by decide)).1⟩

/-- C3 (successful negotiation): whenever `apiver` equals
`SDL_DYNAPI_VERSION` and `tablesize` is at most `sizeof(jump_table)`,
`initialize_jumptable` returns 0 and afterwards every slot of the internal
jump table holds the `fn##_REAL` of its own function; it returns 0 exactly
when both gates pass, and -1 otherwise.  (`hwf`: the address of every
`fn##_REAL` is a value of the pointer type.) -/
theorem initialize_jumptable_success (B : Build) (jt : Bytes) (apiver : Nat)
    (table : Table) (tablesize : Nat)
    (hwf : ∀ i, i < B.nprocs → B.REAL i < 256 ^ B.ptrsize) :
    (apiver = SDL_DYNAPI_VERSION ∧ tablesize ≤ sizeof_jump_table B →
      (initialize_jumptable B jt apiver table tablesize).1 = 0 ∧
      ∀ i, i < B.nprocs →
        slot B (initialize_jumptable B jt apiver table tablesize).2.1 i = B.REAL i) ∧
    ((initialize_jumptable B jt apiver table tablesize).1 = 0 ↔
      apiver = SDL_DYNAPI_VERSION ∧ tablesize ≤ sizeof_jump_table B) ∧
    (¬ (apiver = SDL_DYNAPI_VERSION ∧ tablesize ≤ sizeof_jump_table B) →
      (initialize_jumptable B jt apiver table tablesize).1 = -1) := by
  by_cases hv : apiver = SDL_DYNAPI_VERSION
  · subst hv
    by_cases hs : tablesize ≤ sizeof_jump_table B
    · rw [initialize_jumptable_ok B jt table tablesize hs]
      refine ⟨fun _ => ⟨rfl, fun i hi => slot_populate B jt hwf i hi⟩, ?_, ?_⟩
      · exact ⟨fun _ => ⟨rfl, hs⟩, fun _ => rfl⟩
      · intro hn
        exact absurd ⟨rfl, hs⟩ hn
    · have hr : initialize_jumptable B jt SDL_DYNAPI_VERSION table tablesize = (-1, jt, table) := by
        unfold initialize_jumptable
        rw [if_neg (by simp), if_pos (by omega)]
      rw [hr]
      refine ⟨fun h => absurd h.2 hs, ?_, fun _ => rfl⟩
      constructor
      · intro h
        have h0 : (-1 : Int) = 0 := h
        exact absurd h0 (by decide)
      · intro h
        exact absurd h.2 hs
  · have hr : initialize_jumptable B jt apiver table tablesize = (-1, jt, table) := by
      unfold initialize_jumptable
      rw [if_pos hv]
    rw [hr]
    refine ⟨fun h => absurd h.1 hv, ?_, fun _ => rfl⟩
    constructor
    · intro h
      have h0 : (-1 : Int) = 0 := h
      exact absurd h0 (by decide)
    · intro h
      exact absurd h.1 hv

theorem initialize_jumptable_success_witness :
    (∀ i, i < example_build.nprocs → example_build.REAL i < 256 ^ example_build.ptrsize) ∧
    (initialize_jumptable example_build (initial_jump_table example_build) 2
      (Table.external example_buffer) 3).1 = 0 ∧
    slot example_build (initialize_jumptable example_build (initial_jump_table example_build) 2
      (Table.external example_buffer) 3).2.1 1 = 4097 :=
  ⟨by decide,
   ((initialize_jumptable_success example_build (initial_jump_table example_build) 2
      (Table.external example_buffer) 3 (by decide)).1 ⟨rfl, by decide⟩).1,
   ((initialize_jumptable_success example_build (initial_jump_table example_build) 2
      (Table.external example_buffer) 3 (by decide)).1 ⟨rfl, by decide⟩).2 1 (by decide)⟩

/-- C4 (truncating copy): when `initialize_jumptable` succeeds with a
destination buffer that is not the internal jump table, the first
`tablesize` bytes of the destination equal the first `tablesize` bytes of
the freshly populated internal table, and every destination byte at offset
`tablesize` or beyond is unchanged, also when `tablesize` is smaller than
`sizeof(jump_table)`; when the destination is the internal table itself no
copy is performed. -/
theorem initialize_jumptable_copy (B : Build) (jt buf : Bytes) (tablesize : Nat)
    (h : tablesize ≤ sizeof_jump_table B) :
    (∃ buf',
      initialize_jumptable B jt SDL_DYNAPI_VERSION (Table.external buf) tablesize
        = (0, populate B jt, Table.external buf') ∧
      (∀ o, o < tablesize → buf' o = populate B jt o) ∧
      (∀ o, tablesize ≤ o → buf' o = buf o)) ∧
    initialize_jumptable B jt SDL_DYNAPI_VERSION Table.internal tablesize
      = (0, populate B jt, Table.internal) := by
  constructor
  · refine ⟨SDL_memcpy buf (populate B jt) tablesize, ?_, ?_, ?_⟩
    · rw [initialize_jumptable_ok B jt _ tablesize h]
    · intro o ho
      simp [SDL_memcpy, ho]
    · intro o ho
      have : ¬ o < tablesize := by omega
      simp [SDL_memcpy, this]
  · rw [initialize_jumptable_ok B jt _ tablesize h]

theorem initialize_jumptable_copy_witness :
    3 ≤ sizeof_jump_table example_build ∧
    ∃ buf',
      initialize_jumptable example_build (initial_jump_table example_build) SDL_DYNAPI_VERSION
        (Table.external example_buffer) 3
        = (0, populate example_build (initial_jump_table example_build), Table.external buf') ∧
      (∀ o, o < 3 → buf' o = populate example_build (initial_jump_table example_build) o) ∧
      (∀ o, 3 ≤ o → buf' o = example_buffer o) :=
  ⟨by decide,
   (initialize_jumptable_copy example_build (initial_jump_table example_build) example_buffer 3
      (by decide)).1⟩


/-! ### The candidate scan -/

theorem candidates_nil : candidates [] = [] := by
  simp [candidates, List.splitOn]

theorem candidates_single (v : List Nat) (hne : v ≠ []) (h : ∀ x ∈ v, x ≠ COMMA) :
    candidates v = [v] := by
  have hs : v.splitOn COMMA = [v] := by
    unfold List.splitOn
    apply List.splitOnP_eq_single
    intro x hx
    simpa using h x hx
  simp [candidates, hs, hne]

theorem candidates_cons (seg rest : List Nat) (h : ∀ x ∈ seg, x ≠ COMMA) :
    candidates (seg ++ COMMA :: rest) = seg :: candidates rest := by
  have hs : (seg ++ COMMA :: rest).splitOn COMMA = seg :: rest.splitOn COMMA := by
    unfold List.splitOn
    apply List.splitOnP_first
    · intro x hx
      simpa using h x hx
    · simp
  have hne : rest.splitOn COMMA ≠ [] := List.splitOnP_ne_nil _ _
  unfold candidates
  rw [hs]
  cases hL : rest.splitOn COMMA with
  | nil => exact absurd hL hne
  | cons x xs =>
    simp only [List.getLast?_cons_cons]
    split
    · rfl
    · rfl

theorem split_first_comma (v : List Nat) :
    (∀ x ∈ v, x ≠ COMMA) ∨
    ∃ seg rest, v = seg ++ COMMA :: rest ∧ ∀ x ∈ seg, x ≠ COMMA := by
  induction v with
  | nil => left; simp
  | cons a t ih =>
    by_cases ha : a = COMMA
    · right
      exact ⟨[], t, by simp [ha], by simp⟩
    · rcases ih with h | ⟨seg, rest, h1, h2⟩
      · left
        intro x hx
        rcases List.mem_cons.mp hx with rfl | hx
        · exact ha
        · exact h x hx
      · right
        refine ⟨a :: seg, rest, by simp [h1], ?_⟩
        intro x hx
        rcases List.mem_cons.mp hx with rfl | hx
        · exact ha
        · exact h2 x hx

theorem find_sep_append (seg : List Nat) (c : Nat) (more : List Nat) (p : Nat)
    (hseg : ∀ x ∈ seg, x ≠ COMMA ∧ x ≠ NUL) (hc : c = COMMA ∨ c = NUL) :
    find_sep (seg ++ c :: more) p = p + seg.length := by
  induction seg generalizing p with
  | nil => simp [find_sep, hc]
  | cons a t ih =>
    have ha := hseg a (List.mem_cons_self _ _)
    have : ¬ (a = COMMA ∨ a = NUL) := by
      intro h
      rcases h with h | h
      · exact ha.1 h
      · exact ha.2 h
    simp only [List.cons_append, find_sep, if_neg this]
    show find_sep (t ++ c :: more) (p + 1) = _
    rw [ih _ (fun x hx => hseg x (List.mem_cons_of_mem _ hx))]
    simp only [List.length_cons]
    omega

theorem set_at_length (a : List Nat) (c x : Nat) (more : List Nat) :
    (a ++ c :: more).set a.length x = a ++ x :: more := by
  induction a with
  | nil => rfl
  | cons h t ih => simp [ih]

theorem rd_at_length (a : List Nat) (c : Nat) (more : List Nat) :
    rd (a ++ c :: more) a.length = c := by
  induction a with
  | nil => rfl
  | cons h t ih => simpa [rd] using ih

theorem c_string_at (pre seg more : List Nat) (hseg : ∀ x ∈ seg, x ≠ NUL) :
    c_string (pre ++ seg ++ NUL :: more) pre.length = seg := by
  unfold c_string
  rw [List.append_assoc, List.drop_left]
  induction seg with
  | nil => simp [List.takeWhile]
  | cons a t ih =>
    have ha := hseg a (List.mem_cons_self _ _)
    simp only [List.cons_append, List.takeWhile_cons]
    rw [ih (fun x hx => hseg x (List.mem_cons_of_mem _ hx))]
    simp [ha]

/-- One pass of the scan at the start of a candidate `seg` that is followed
by the separator or terminator `c`: the candidate is passed to the loader,
the string is left as it was, and `libname` moves past the comma or onto
the terminator. -/
theorem scan_step_spec (ld : Loader) (pre seg : List Nat) (c : Nat) (more : List Nat)
    (e0 : Option ENTRYFN) (cs : List (List Nat))
    (hseg : ∀ x ∈ seg, x ≠ COMMA ∧ x ≠ NUL) (hc : c = COMMA ∨ c = NUL) :
    scan_step ld { buf := pre ++ seg ++ c :: more, libname := pre.length, entry := e0,
                   calls := cs } =
      { buf := pre ++ seg ++ c :: more,
        libname := if c = NUL then pre.length + seg.length else pre.length + seg.length + 1,
        entry := ld seg "SDL_DYNAPI_entry", calls := cs ++ [seg] } := by
  have hdrop : (pre ++ seg ++ c :: more).drop pre.length = seg ++ c :: more := by
    rw [List.append_assoc, List.drop_left]
  have hlen : pre.length + seg.length = (pre ++ seg).length := by simp
  unfold scan_step
  simp only [hdrop, find_sep_append seg c more pre.length hseg hc]
  rw [hlen, rd_at_length, set_at_length, set_at_length,
    c_string_at pre seg more (fun x hx => (hseg x hx).2)]


theorem scan_loop_stop (ld : Loader) (fuel : Nat) (st : Scan)
    (h : rd st.buf st.libname = NUL ∨ st.entry.isSome = true) :
    scan_loop ld fuel st = st := by
  cases fuel with
  | zero => rfl
  | succ n =>
    unfold scan_loop
    rw [if_neg]
    intro ⟨h1, h2⟩
    rcases h with h | h
    · exact h1 h
    · simp [Option.isNone_iff_eq_none] at h2
      simp [h2] at h

theorem first_resolved_cons (ld : Loader) (c : List Nat) (cs : List (List Nat)) :
    first_resolved ld (c :: cs) =
      match ld c "SDL_DYNAPI_entry" with
      | some e => some e
      | none => first_resolved ld cs := by
  simp only [first_resolved, List.findSome?_cons]
  cases ld c "SDL_DYNAPI_entry" <;> rfl

/-- The candidate scan from the start of the candidates of `rest`: the
string is left as it was, `entry` is that of the first candidate that
resolves, and the names passed to the loader are the candidates up to
that one. -/
theorem scan_loop_spec (ld : Loader) :
    ∀ (fuel : Nat) (pre rest : List Nat) (cs : List (List Nat)),
      (∀ x ∈ rest, x ≠ NUL) → rest.length ≤ fuel →
      ∃ l, scan_loop ld fuel
          { buf := pre ++ rest ++ [NUL], libname := pre.length, entry := none, calls := cs } =
        { buf := pre ++ rest ++ [NUL], libname := l,
          entry := first_resolved ld (candidates rest),
          calls := cs ++ tried ld (candidates rest) } := by
  intro fuel
  induction fuel with
  | zero =>
    intro pre rest cs _ hlen
    have : rest = [] := List.eq_nil_of_length_eq_zero (by omega)
    subst this
    exact ⟨pre.length, by simp [scan_loop, candidates_nil, first_resolved, tried]⟩
  | succ n ih =>
    intro pre rest cs hz hlen
    cases hrest : rest with
    | nil =>
      refine ⟨pre.length, ?_⟩
      rw [scan_loop_stop]
      · simp [candidates_nil, first_resolved, tried]
      · left
        simpa using rd_at_length pre NUL []
    | cons a t =>
      rw [← hrest]
      have ha : a ≠ NUL := hz a (by simp [hrest])
      have hcond : rd (pre ++ rest ++ [NUL]) pre.length ≠ NUL := by
        rw [hrest]
        have := rd_at_length pre a (t ++ [NUL])
        rw [List.append_assoc, List.cons_append, this]
        exact ha
      unfold scan_loop
      rw [if_pos ⟨hcond, rfl⟩]
      rcases split_first_comma rest with hno | ⟨seg, rest', hsplit, hseg⟩
      · -- the last candidate: it ends at the terminator
        have hstep := scan_step_spec ld pre rest NUL [] none cs
          (fun x hx => ⟨hno x hx, hz x hx⟩) (Or.inr rfl)
        rw [if_pos rfl] at hstep
        rw [hstep]
        refine ⟨pre.length + rest.length, ?_⟩
        rw [scan_loop_stop]
        · have hne : rest ≠ [] := by simp [hrest]
          rw [candidates_single rest hne hno]
          simp only [first_resolved_cons, tried]
          cases ld rest "SDL_DYNAPI_entry" <;> simp [first_resolved]
        · left
          show rd (pre ++ rest ++ [NUL]) (pre.length + rest.length) = NUL
          have := rd_at_length (pre ++ rest) NUL []
          simpa using this
      · -- a candidate that ends at a comma
        have hz' : ∀ x ∈ rest', x ≠ NUL := fun x hx => hz x (by simp [hsplit, hx])
        have hsegz : ∀ x ∈ seg, x ≠ COMMA ∧ x ≠ NUL :=
          fun x hx => ⟨hseg x hx, hz x (by simp [hsplit, hx])⟩
        have hlen' : rest'.length ≤ n := by
          have : rest.length = seg.length + (rest'.length + 1) := by simp [hsplit]
          omega
        have hbuf : pre ++ rest ++ [NUL] = pre ++ seg ++ COMMA :: (rest' ++ [NUL]) := by
          simp [hsplit]
        have hbuf' : pre ++ rest ++ [NUL] = (pre ++ seg ++ [COMMA]) ++ rest' ++ [NUL] := by
          simp [hsplit]
        have hstep := scan_step_spec ld pre seg COMMA (rest' ++ [NUL]) none cs hsegz (Or.inl rfl)
        rw [if_neg (by decide)] at hstep
        rw [hbuf, hstep, ← hbuf, hsplit, candidates_cons seg rest' hseg, first_resolved_cons]
        cases hld : ld seg "SDL_DYNAPI_entry" with
        | some e =>
          refine ⟨pre.length + seg.length + 1, ?_⟩
          rw [scan_loop_stop]
          · simp [tried, hld]
          · right
            rfl
        | none =>
          have hl : pre.length + seg.length + 1 = (pre ++ seg ++ [COMMA]).length := by
            simp [Nat.add_assoc]
          obtain ⟨l, hl'⟩ := ih (pre ++ seg ++ [COMMA]) rest' (cs ++ [seg]) hz' hlen'
          refine ⟨l, ?_⟩
          rw [← hsplit, hbuf', hl, hl']
          simp [tried, hld]

theorem scan_spec (ld : Loader) (value : List Nat) (hz : ∀ x ∈ value, x ≠ NUL) :
    (scan ld (value ++ [NUL])).buf = value ++ [NUL] ∧
    (scan ld (value ++ [NUL])).entry = first_resolved ld (candidates value) ∧
    (scan ld (value ++ [NUL])).calls = tried ld (candidates value) := by
  obtain ⟨l, h⟩ := scan_loop_spec ld (value ++ [NUL]).length [] value [] hz (by simp)
  unfold scan
  simp only [List.nil_append, List.length_nil] at h
  rw [h]
  simp


/-! ### `SDL_InitDynamicAPILocked` and `SDL_InitDynamicAPI` -/

theorem find_entry_fields (ld : Loader) (s : State) :
    (find_entry ld s).2.jump_table = s.jump_table ∧
    (find_entry ld s).2.already_initialized = s.already_initialized ∧
    (find_entry ld s).2.lock = s.lock ∧
    (find_entry ld s).2.exited = s.exited := by
  unfold find_entry
  split
  · exact ⟨rfl, rfl, rfl, rfl⟩
  · simp only []
    split <;> exact ⟨rfl, rfl, rfl, rfl⟩

theorem find_entry_fst_congr (ld : Loader) (s s' : State) (h : s.environ = s'.environ) :
    (find_entry ld s).1 = (find_entry ld s').1 := by
  unfold find_entry
  rw [h]
  split
  · rfl
  · simp only []
    split <;> simp_all

/-- What `SDL_InitDynamicAPILocked` does, by the outcome of the scan and of
the call of a resolved entry point; the fatal branch is not among the
outcomes. -/
theorem SDL_InitDynamicAPILocked_eq (B : Build) (ld : Loader) (s : State) :
    SDL_InitDynamicAPILocked B ld s =
      match (find_entry ld { s with trace := s.trace ++ [Event.init_locked] }).1 with
      | none =>
        { (find_entry ld { s with trace := s.trace ++ [Event.init_locked] }).2 with
          jump_table := populate B s.jump_table,
          trace := (find_entry ld { s with trace := s.trace ++ [Event.init_locked] }).2.trace ++
            [Event.initialize_jumptable SDL_DYNAPI_VERSION (sizeof_jump_table B % 2 ^ 32)] }
      | some e =>
        if (e SDL_DYNAPI_VERSION s.jump_table (sizeof_jump_table B % 2 ^ 32)).1 < 0 then
          { (find_entry ld { s with trace := s.trace ++ [Event.init_locked] }).2 with
            jump_table :=
              populate B (e SDL_DYNAPI_VERSION s.jump_table (sizeof_jump_table B % 2 ^ 32)).2,
            trace := (find_entry ld { s with trace := s.trace ++ [Event.init_locked] }).2.trace ++
              [Event.entry SDL_DYNAPI_VERSION (sizeof_jump_table B % 2 ^ 32),
               Event.dynapi_warn MSG_OVERRIDE,
               Event.initialize_jumptable SDL_DYNAPI_VERSION (sizeof_jump_table B % 2 ^ 32)] }
        else
          { (find_entry ld { s with trace := s.trace ++ [Event.init_locked] }).2 with
            jump_table := (e SDL_DYNAPI_VERSION s.jump_table (sizeof_jump_table B % 2 ^ 32)).2,
            trace := (find_entry ld { s with trace := s.trace ++ [Event.init_locked] }).2.trace ++
              [Event.entry SDL_DYNAPI_VERSION (sizeof_jump_table B % 2 ^ 32)] } := by
  have hjt := (find_entry_fields ld { s with trace := s.trace ++ [Event.init_locked] }).1
  simp only [] at hjt
  unfold SDL_InitDynamicAPILocked
  simp only []
  cases hfe : (find_entry ld { s with trace := s.trace ++ [Event.init_locked] }) with
  | mk entry s1 =>
    rw [hfe] at hjt
    simp only [] at hjt
    cases entry with
    | none =>
      simp only [call_entry, if_true, initialize_jumptable_internal, hjt]
      rw [if_neg (by decide)]
    | some e =>
      simp only [call_entry, hjt]
      by_cases hneg : (e SDL_DYNAPI_VERSION s.jump_table (sizeof_jump_table B % 2 ^ 32)).1 < 0
      · simp only [hneg, if_true, initialize_jumptable_internal, dynapi_warn]
        rw [if_neg (by decide)]
        simp
      · simp only [hneg, if_false, Bool.false_eq_true]

theorem find_entry_eq (ld : Loader) (s : State) :
    find_entry ld s =
      match s.environ with
      | none => (none, s)
      | some buf =>
        ((scan ld buf).entry,
         { s with
           environ := some (scan ld buf).buf,
           trace := s.trace ++
             (scan ld buf).calls.map (fun n => Event.get_sdlapi_entry n "SDL_DYNAPI_entry") ++
             match (scan ld buf).entry with
             | none => [Event.dynapi_warn MSG_LOAD]
             | some _ => [] }) := by
  unfold find_entry
  split
  · rfl
  · simp only []
    split <;> rename_i h <;> simp [h, dynapi_warn]

theorem SDL_InitDynamicAPILocked_fields (B : Build) (ld : Loader) (s : State) :
    (SDL_InitDynamicAPILocked B ld s).exited = s.exited ∧
    (SDL_InitDynamicAPILocked B ld s).lock = s.lock ∧
    (SDL_InitDynamicAPILocked B ld s).already_initialized = s.already_initialized := by
  have hf := find_entry_fields ld { s with trace := s.trace ++ [Event.init_locked] }
  rw [SDL_InitDynamicAPILocked_eq]
  split
  · exact ⟨hf.2.2.2, hf.2.2.1, hf.2.1⟩
  · split
    · exact ⟨hf.2.2.2, hf.2.2.1, hf.2.1⟩
    · exact ⟨hf.2.2.2, hf.2.2.1, hf.2.1⟩

theorem filter_get_sdlapi_entry (p : Event → Bool) (names : List (List Nat))
    (hp : ∀ n, p (Event.get_sdlapi_entry n "SDL_DYNAPI_entry") = false) :
    (names.map (fun n => Event.get_sdlapi_entry n "SDL_DYNAPI_entry")).filter p = [] := by
  induction names with
  | nil => rfl
  | cons a t ih => simp [List.filter_cons, hp a, ih]

theorem find_entry_filter (ld : Loader) (s : State) (p : Event → Bool)
    (hp : ∀ n, p (Event.get_sdlapi_entry n "SDL_DYNAPI_entry") = false)
    (hw : p (Event.dynapi_warn MSG_LOAD) = false) :
    (find_entry ld s).2.trace.filter p = s.trace.filter p := by
  rw [find_entry_eq]
  split
  · rfl
  · simp only [List.filter_append, filter_get_sdlapi_entry p _ hp]
    split <;> simp [List.filter_cons, hw]

theorem SDL_InitDynamicAPILocked_runs (B : Build) (ld : Loader) (s : State) :
    locked_runs (SDL_InitDynamicAPILocked B ld s) = locked_runs s + 1 := by
  have hf := find_entry_filter ld { s with trace := s.trace ++ [Event.init_locked] }
    Event.is_init_locked (fun _ => rfl) rfl
  simp only [List.filter_append] at hf
  unfold locked_runs
  rw [SDL_InitDynamicAPILocked_eq]
  split
  · simp [List.filter_append, hf, List.filter_cons, Event.is_init_locked]
  · split
    · simp [List.filter_append, hf, List.filter_cons, Event.is_init_locked]
    · simp [List.filter_append, hf, List.filter_cons, Event.is_init_locked]

theorem SDL_InitDynamicAPI_first (B : Build) (ld : Loader) (s : State)
    (h1 : s.already_initialized = false) (h2 : s.lock = 0) (h3 : s.exited = none) :
    SDL_InitDynamicAPI B ld s =
      some { SDL_InitDynamicAPILocked B ld { s with lock := 1 } with
             already_initialized := true, lock := 0 } := by
  cases s
  simp only [] at h1 h2 h3
  subst h1 h2 h3
  rename_i jt env tr
  have hx := (SDL_InitDynamicAPILocked_fields B ld
    { jump_table := jt, environ := env, already_initialized := false, lock := 1,
      exited := none, trace := tr }).1
  simp only [] at hx
  unfold SDL_InitDynamicAPI
  simp [hx]

theorem SDL_InitDynamicAPI_later (B : Build) (ld : Loader) (s : State)
    (h1 : s.already_initialized = true) (h2 : s.lock = 0) (h3 : s.exited = none) :
    SDL_InitDynamicAPI B ld s = some s := by
  cases s
  simp only [] at h1 h2 h3
  subst h1 h2 h3
  simp [SDL_InitDynamicAPI]

theorem init_calls_later (B : Build) (ld : Loader) (n : Nat) (s : State)
    (h1 : s.already_initialized = true) (h2 : s.lock = 0) (h3 : s.exited = none) :
    init_calls B ld n s = some s := by
  induction n with
  | zero => rfl
  | succ n ih =>
    simp only [init_calls, SDL_InitDynamicAPI_later B ld s h1 h2 h3, Option.some_bind, ih]


/-- The whole of `SDL_InitDynamicAPILocked` when the override variable is
set to `value`: the loader is given the candidates in order up to the first
that resolves; that one alone is asked to negotiate. -/
theorem SDL_InitDynamicAPILocked_spec (B : Build) (ld : Loader) (s : State) (value : List Nat)
    (henv : s.environ = some (value ++ [NUL])) (hz : ∀ x ∈ value, x ≠ NUL) :
    SDL_InitDynamicAPILocked B ld s =
      match first_resolved ld (candidates value) with
      | none =>
        { s with
          jump_table := populate B s.jump_table,
          trace := s.trace ++ [Event.init_locked] ++
            (tried ld (candidates value)).map
              (fun n => Event.get_sdlapi_entry n "SDL_DYNAPI_entry") ++
            [Event.dynapi_warn MSG_LOAD,
             Event.initialize_jumptable SDL_DYNAPI_VERSION (sizeof_jump_table B % 2 ^ 32)] }
      | some e =>
        if (e SDL_DYNAPI_VERSION s.jump_table (sizeof_jump_table B % 2 ^ 32)).1 < 0 then
          { s with
            jump_table :=
              populate B (e SDL_DYNAPI_VERSION s.jump_table (sizeof_jump_table B % 2 ^ 32)).2,
            trace := s.trace ++ [Event.init_locked] ++
              (tried ld (candidates value)).map
                (fun n => Event.get_sdlapi_entry n "SDL_DYNAPI_entry") ++
              [Event.entry SDL_DYNAPI_VERSION (sizeof_jump_table B % 2 ^ 32),
               Event.dynapi_warn MSG_OVERRIDE,
               Event.initialize_jumptable SDL_DYNAPI_VERSION (sizeof_jump_table B % 2 ^ 32)] }
        else
          { s with
            jump_table := (e SDL_DYNAPI_VERSION s.jump_table (sizeof_jump_table B % 2 ^ 32)).2,
            trace := s.trace ++ [Event.init_locked] ++
              (tried ld (candidates value)).map
                (fun n => Event.get_sdlapi_entry n "SDL_DYNAPI_entry") ++
              [Event.entry SDL_DYNAPI_VERSION (sizeof_jump_table B % 2 ^ 32)] } := by
  obtain ⟨hb, he, hc⟩ := scan_spec ld value hz
  cases s
  simp only [] at henv
  subst henv
  rw [SDL_InitDynamicAPILocked_eq]
  simp only [find_entry_eq, hb, he, hc]
  cases first_resolved ld (candidates value) with
  | none => simp
  | some e =>
    simp only []
    split <;> simp

theorem loaded_names_append (xs ys : List Event) :
    loaded_names (xs ++ ys) = loaded_names xs ++ loaded_names ys := by
  induction xs with
  | nil => rfl
  | cons a t ih => cases a <;> simp [loaded_names, ih]

theorem loaded_names_map (names : List (List Nat)) :
    loaded_names (names.map (fun n => Event.get_sdlapi_entry n "SDL_DYNAPI_entry")) = names := by
  induction names with
  | nil => rfl
  | cons a t ih => simp [loaded_names, ih]

/-- The table `SDL_InitDynamicAPILocked` leaves, by the outcome of the scan
and of the call of a resolved entry point. -/
theorem SDL_InitDynamicAPILocked_jump_table (B : Build) (ld : Loader) (s : State) :
    (SDL_InitDynamicAPILocked B ld s).jump_table =
      match (find_entry ld s).1 with
      | none => populate B s.jump_table
      | some e =>
        if (e SDL_DYNAPI_VERSION s.jump_table (sizeof_jump_table B % 2 ^ 32)).1 < 0 then
          populate B (e SDL_DYNAPI_VERSION s.jump_table (sizeof_jump_table B % 2 ^ 32)).2
        else (e SDL_DYNAPI_VERSION s.jump_table (sizeof_jump_table B % 2 ^ 32)).2 := by
  rw [SDL_InitDynamicAPILocked_eq,
    find_entry_fst_congr ld { s with trace := s.trace ++ [Event.init_locked] } s rfl]
  split
  · rfl
  · split <;> rfl

/-! ### Initialization as a whole -/

/-- C5 (table completeness) fails as stated: an override entry point that
reports success and has filled all `sizeof(jump_table)` bytes with non-null
pointers may have written the addresses of the bootstrap stubs; the table
is then used as it is, and after `SDL_InitDynamicAPI` has completed slot 0
still holds its `fn##_DEFAULT`. -/
theorem init_table_complete_counterexample :
    (∀ i, i < example_build.nprocs →
      slot example_build (entry_stubs SDL_DYNAPI_VERSION (initial_jump_table example_build)
        (sizeof_jump_table example_build % 2 ^ 32)).2 i ≠ 0) ∧
    (entry_stubs SDL_DYNAPI_VERSION (initial_jump_table example_build)
        (sizeof_jump_table example_build % 2 ^ 32)).1 = 0 ∧
    (SDL_InitDynamicAPI example_build example_loader
        (initial_state example_build (some [115, 0]))).map
      (fun s => (s.already_initialized, slot example_build s.jump_table 0))
      = some (true, example_build.DEFAULT 0) := by
  decide

/-- C5 (table completeness), amended: after `SDL_InitDynamicAPI` has
completed, on the built-in path every slot is `fn##_REAL`, so it is non-null
and is not its bootstrap stub `fn##_DEFAULT`; on the override path the table
is what the override entry left, so every slot is the override's pointer:
it is non-null when the override has filled the table with non-null
pointers, and it is not the bootstrap stub when the override did not write
the address of the stub.  (`hwf`, `hreal`: every `fn##_REAL` is a function
and is not `fn##_DEFAULT`.) -/
theorem init_table_complete (B : Build) (ld : Loader) (s : State)
    (h1 : s.already_initialized = false) (h2 : s.lock = 0) (h3 : s.exited = none)
    (hwf : ∀ i, i < B.nprocs → B.REAL i < 256 ^ B.ptrsize)
    (hreal : ∀ i, i < B.nprocs → B.REAL i ≠ 0 ∧ B.REAL i ≠ B.DEFAULT i) :
    ∃ s', SDL_InitDynamicAPI B ld s = some s' ∧ s'.already_initialized = true ∧
      (((find_entry ld s).1 = none ∨
          ∃ e, (find_entry ld s).1 = some e ∧
            (e SDL_DYNAPI_VERSION s.jump_table (sizeof_jump_table B % 2 ^ 32)).1 < 0) →
        ∀ i, i < B.nprocs →
          slot B s'.jump_table i = B.REAL i ∧ slot B s'.jump_table i ≠ 0 ∧
          slot B s'.jump_table i ≠ B.DEFAULT i) ∧
      (∀ e, (find_entry ld s).1 = some e →
        0 ≤ (e SDL_DYNAPI_VERSION s.jump_table (sizeof_jump_table B % 2 ^ 32)).1 →
        s'.jump_table = (e SDL_DYNAPI_VERSION s.jump_table (sizeof_jump_table B % 2 ^ 32)).2 ∧
        ((∀ i, i < B.nprocs →
            slot B (e SDL_DYNAPI_VERSION s.jump_table (sizeof_jump_table B % 2 ^ 32)).2 i ≠ 0) →
          ∀ i, i < B.nprocs → slot B s'.jump_table i ≠ 0) ∧
        ((∀ i, i < B.nprocs →
            slot B (e SDL_DYNAPI_VERSION s.jump_table (sizeof_jump_table B % 2 ^ 32)).2 i
              ≠ B.DEFAULT i) →
          ∀ i, i < B.nprocs → slot B s'.jump_table i ≠ B.DEFAULT i)) := by
  refine ⟨_, SDL_InitDynamicAPI_first B ld s h1 h2 h3, rfl, ?_, ?_⟩
  · intro hfail i hi
    have hjt : ({ SDL_InitDynamicAPILocked B ld { s with lock := 1 } with
        already_initialized := true, lock := 0 } : State).jump_table
        = (SDL_InitDynamicAPILocked B ld { s with lock := 1 }).jump_table := rfl
    rw [hjt, SDL_InitDynamicAPILocked_jump_table,
      find_entry_fst_congr ld { s with lock := 1 } s rfl]
    have hslot : ∀ jt, slot B (populate B jt) i = B.REAL i ∧ slot B (populate B jt) i ≠ 0 ∧
        slot B (populate B jt) i ≠ B.DEFAULT i := by
      intro jt
      rw [slot_populate B jt hwf i hi]
      exact ⟨rfl, hreal i hi⟩
    rcases hfail with hnone | ⟨e, hsome, hneg⟩
    · rw [hnone]
      exact hslot _
    · rw [hsome]
      simp only []
      rw [if_pos hneg]
      exact hslot _
  · intro e hsome hok
    have hjt : ({ SDL_InitDynamicAPILocked B ld { s with lock := 1 } with
        already_initialized := true, lock := 0 } : State).jump_table
        = (e SDL_DYNAPI_VERSION s.jump_table (sizeof_jump_table B % 2 ^ 32)).2 := by
      show (SDL_InitDynamicAPILocked B ld { s with lock := 1 }).jump_table = _
      rw [SDL_InitDynamicAPILocked_jump_table,
        find_entry_fst_congr ld { s with lock := 1 } s rfl, hsome]
      simp only []
      rw [if_neg (by omega)]
    rw [hjt]
    exact ⟨rfl, fun h => h, fun h => h⟩

theorem init_table_complete_witness :
    (initial_state example_build (some [99, 44, 98, 0])).already_initialized = false ∧
    ∃ s', SDL_InitDynamicAPI example_build example_loader
        (initial_state example_build (some [99, 44, 98, 0])) = some s' ∧
      s'.already_initialized = true :=
  ⟨rfl,
   (init_table_complete example_build example_loader
      (initial_state example_build (some [99, 44, 98, 0])) rfl rfl rfl
      (by decide) (by decide)).imp (fun _ h => ⟨h.1, h.2.1⟩)⟩

/-- C6 (idempotence of initialization): in every sequence of `n >= 1` calls
of `SDL_InitDynamicAPI`, starting before initialization, every call returns,
`SDL_InitDynamicAPILocked` is executed exactly once, during the first call,
and every later call leaves `already_initialized` true and does not touch
the jump table (it makes no call at all). -/
theorem init_runs_once (B : Build) (ld : Loader) (s : State) (n : Nat) (hn : 1 ≤ n)
    (h1 : s.already_initialized = false) (h2 : s.lock = 0) (h3 : s.exited = none) :
    ∃ s1 sn, SDL_InitDynamicAPI B ld s = some s1 ∧ init_calls B ld n s = some sn ∧
      locked_runs s1 = locked_runs s + 1 ∧
      locked_runs sn = locked_runs s + 1 ∧
      sn.already_initialized = true ∧
      sn.jump_table = s1.jump_table ∧
      sn.trace = s1.trace := by
  have hfirst := SDL_InitDynamicAPI_first B ld s h1 h2 h3
  have hf := SDL_InitDynamicAPILocked_fields B ld { s with lock := 1 }
  have hruns := SDL_InitDynamicAPILocked_runs B ld { s with lock := 1 }
  obtain ⟨m, rfl⟩ : ∃ m, n = m + 1 := ⟨n - 1, by omega⟩
  have hlater : init_calls B ld (m + 1) s =
      some { SDL_InitDynamicAPILocked B ld { s with lock := 1 } with
             already_initialized := true, lock := 0 } := by
    simp only [init_calls, hfirst, Option.some_bind]
    exact init_calls_later B ld m _ rfl rfl (by rw [← h3]; exact hf.1)
  exact ⟨{ SDL_InitDynamicAPILocked B ld { s with lock := 1 } with
             already_initialized := true, lock := 0 },
         { SDL_InitDynamicAPILocked B ld { s with lock := 1 } with
             already_initialized := true, lock := 0 },
         hfirst, hlater, hruns, hruns, rfl, rfl, rfl⟩

theorem init_runs_once_witness :
    1 ≤ 3 ∧
    ∃ s1 sn, SDL_InitDynamicAPI example_build example_loader
        (initial_state example_build (some [99, 44, 98, 0])) = some s1 ∧
      init_calls example_build example_loader 3
        (initial_state example_build (some [99, 44, 98, 0])) = some sn ∧
      locked_runs s1 = locked_runs (initial_state example_build (some [99, 44, 98, 0])) + 1 ∧
      locked_runs sn = locked_runs (initial_state example_build (some [99, 44, 98, 0])) + 1 ∧
      sn.already_initialized = true ∧
      sn.jump_table = s1.jump_table ∧
      sn.trace = s1.trace :=
  ⟨by decide,
   init_runs_once example_build example_loader
     (initial_state example_build (some [99, 44, 98, 0])) 3 (by decide) rfl rfl rfl⟩

/-! ### Override resolution -/

/-- C7 (candidate order) fails as stated: with the value `a,b`, where the
module `a` resolves but its entry point reports incompatibility, and the
module `b` resolves and would negotiate successfully, the scan stops at
`a`: `b` is never passed to `get_sdlapi_entry` and the table used is the
built-in one, not the one `b` would have supplied. -/
theorem candidate_order_counterexample :
    candidates [97, 44, 98] = [[97], [98]] ∧
    (example_loader [97] "SDL_DYNAPI_entry").map
      (fun e => decide ((e SDL_DYNAPI_VERSION (initial_jump_table example_build)
        (sizeof_jump_table example_build % 2 ^ 32)).1 < 0)) = some true ∧
    (example_loader [98] "SDL_DYNAPI_entry").map
      (fun e => ((e SDL_DYNAPI_VERSION (initial_jump_table example_build)
          (sizeof_jump_table example_build % 2 ^ 32)).1,
        slot example_build (e SDL_DYNAPI_VERSION (initial_jump_table example_build)
          (sizeof_jump_table example_build % 2 ^ 32)).2 0)) = some (0, 513) ∧
    loaded_names (SDL_InitDynamicAPILocked example_build example_loader
      (initial_state example_build (some [97, 44, 98, 0]))).trace = [[97]] ∧
    slot example_build (SDL_InitDynamicAPILocked example_build example_loader
      (initial_state example_build (some [97, 44, 98, 0]))).jump_table 0 = 4096 ∧
    example_build.REAL 0 = 4096 := by
  decide

/-- C7 (candidate order), amended: for every value of the override
variable, `SDL_InitDynamicAPILocked` passes the comma-separated candidates
to `get_sdlapi_entry` in order until one resolves its `SDL_DYNAPI_entry`
symbol or the list is exhausted; only that first resolved candidate is asked
to negotiate: when its negotiation succeeds its table is the one used, and
when it fails, or no candidate resolves, the built-in table is used. -/
theorem candidate_order (B : Build) (ld : Loader) (s : State) (value : List Nat)
    (henv : s.environ = some (value ++ [NUL])) (hz : ∀ x ∈ value, x ≠ NUL) :
    loaded_names (SDL_InitDynamicAPILocked B ld s).trace
      = loaded_names s.trace ++ tried ld (candidates value) ∧
    (find_entry ld s).1 = first_resolved ld (candidates value) ∧
    (SDL_InitDynamicAPILocked B ld s).jump_table =
      match first_resolved ld (candidates value) with
      | none => populate B s.jump_table
      | some e =>
        if (e SDL_DYNAPI_VERSION s.jump_table (sizeof_jump_table B % 2 ^ 32)).1 < 0 then
          populate B (e SDL_DYNAPI_VERSION s.jump_table (sizeof_jump_table B % 2 ^ 32)).2
        else (e SDL_DYNAPI_VERSION s.jump_table (sizeof_jump_table B % 2 ^ 32)).2 := by
  have hfe : (find_entry ld s).1 = first_resolved ld (candidates value) := by
    rw [find_entry_eq, henv]
    exact (scan_spec ld value hz).2.1
  refine ⟨?_, hfe, ?_⟩
  · rw [SDL_InitDynamicAPILocked_spec B ld s value henv hz]
    cases first_resolved ld (candidates value) with
    | none => simp [loaded_names_append, loaded_names_map, loaded_names]
    | some e =>
      simp only []
      split <;> simp [loaded_names_append, loaded_names_map, loaded_names]
  · rw [SDL_InitDynamicAPILocked_jump_table, hfe]

theorem candidate_order_witness :
    (initial_state example_build (some ([99, 44, 98] ++ [NUL]))).environ
      = some ([99, 44, 98] ++ [NUL]) ∧
    (∀ x ∈ [99, 44, 98], x ≠ NUL) ∧
    loaded_names (SDL_InitDynamicAPILocked example_build example_loader
        (initial_state example_build (some ([99, 44, 98] ++ [NUL])))).trace
      = loaded_names (initial_state example_build (some ([99, 44, 98] ++ [NUL]))).trace
        ++ tried example_loader (candidates [99, 44, 98]) :=
  ⟨rfl, by decide,
   (candidate_order example_build example_loader
      (initial_state example_build (some ([99, 44, 98] ++ [NUL]))) [99, 44, 98] rfl
      (by decide)).1⟩

/-- C8 (override success skips the built-in initializer): whenever a
candidate's entry point is resolved and its call
`entry(SDL_DYNAPI_VERSION, &jump_table, sizeof(jump_table))` returns a
non-negative value, `SDL_InitDynamicAPILocked` does not call
`initialize_jumptable` and the jump table is left exactly as the override's
entry wrote it. -/
theorem override_success_skips_builtin (B : Build) (ld : Loader) (s : State) (e : ENTRYFN)
    (hres : (find_entry ld s).1 = some e)
    (hok : 0 ≤ (e SDL_DYNAPI_VERSION s.jump_table (sizeof_jump_table B % 2 ^ 32)).1) :
    (SDL_InitDynamicAPILocked B ld s).jump_table
      = (e SDL_DYNAPI_VERSION s.jump_table (sizeof_jump_table B % 2 ^ 32)).2 ∧
    (SDL_InitDynamicAPILocked B ld s).trace.filter Event.is_initialize_jumptable
      = s.trace.filter Event.is_initialize_jumptable := by
  have hres' : (find_entry ld { s with trace := s.trace ++ [Event.init_locked] }).1 = some e := by
    rw [find_entry_fst_congr ld { s with trace := s.trace ++ [Event.init_locked] } s rfl, hres]
  have hf := find_entry_filter ld { s with trace := s.trace ++ [Event.init_locked] }
    Event.is_initialize_jumptable (fun _ => rfl) rfl
  constructor
  · rw [SDL_InitDynamicAPILocked_jump_table, hres]
    simp only []
    rw [if_neg (by omega)]
  · rw [SDL_InitDynamicAPILocked_eq, hres']
    simp only []
    rw [if_neg (by omega)]
    simp only [List.filter_append] at hf
    simp [List.filter_append, hf, List.filter_cons, Event.is_initialize_jumptable]

theorem override_success_skips_builtin_witness :
    (find_entry example_loader (initial_state example_build (some [99, 44, 98, 0]))).1
      = some entry_good ∧
    0 ≤ (entry_good SDL_DYNAPI_VERSION
      (initial_state example_build (some [99, 44, 98, 0])).jump_table
      (sizeof_jump_table example_build % 2 ^ 32)).1 ∧
    (SDL_InitDynamicAPILocked example_build example_loader
        (initial_state example_build (some [99, 44, 98, 0]))).trace.filter
        Event.is_initialize_jumptable
      = (initial_state example_build (some [99, 44, 98, 0])).trace.filter
        Event.is_initialize_jumptable :=
  ⟨rfl, by decide,
   (override_success_skips_builtin example_build example_loader
      (initial_state example_build (some [99, 44, 98, 0])) entry_good rfl (by decide)).2⟩

/-- C9 (fallback correctness) fails as stated: with the value `c,b`, where
the module `c` cannot be loaded and the module `b` is valid, the table of
`b` is used and `dynapi_warn` is not called at all, so the missing module
produces no diagnostic. -/
theorem fallback_counterexample :
    candidates [99, 44, 98] = [[99], [98]] ∧
    (example_loader [99] "SDL_DYNAPI_entry").isNone = true ∧
    (example_loader [98] "SDL_DYNAPI_entry").map
      (fun e => ((e SDL_DYNAPI_VERSION (initial_jump_table example_build)
          (sizeof_jump_table example_build % 2 ^ 32)).1,
        slot example_build (e SDL_DYNAPI_VERSION (initial_jump_table example_build)
          (sizeof_jump_table example_build % 2 ^ 32)).2 0)) = some (0, 513) ∧
    slot example_build (SDL_InitDynamicAPILocked example_build example_loader
      (initial_state example_build (some [99, 44, 98, 0]))).jump_table 0 = 513 ∧
    (SDL_InitDynamicAPILocked example_build example_loader
      (initial_state example_build (some [99, 44, 98, 0]))).trace.filter Event.is_warn = [] := by
  decide

/-- C9 (fallback correctness), amended: given an override-list value naming
a module `a` that cannot be loaded followed by a valid one `b` (it resolves
and negotiates successfully), both are passed to `get_sdlapi_entry` in that
order, the table of `b` is used, and no diagnostic is emitted, about either
of them: `dynapi_warn` is not called. -/
theorem fallback_second_candidate (B : Build) (ld : Loader) (s : State) (a b : List Nat)
    (e : ENTRYFN)
    (henv : s.environ = some (a ++ COMMA :: b ++ [NUL]))
    (ha : ∀ x ∈ a, x ≠ COMMA ∧ x ≠ NUL) (hb : ∀ x ∈ b, x ≠ COMMA ∧ x ≠ NUL) (hne : b ≠ [])
    (hmissing : ld a "SDL_DYNAPI_entry" = none)
    (hvalid : ld b "SDL_DYNAPI_entry" = some e)
    (hok : 0 ≤ (e SDL_DYNAPI_VERSION s.jump_table (sizeof_jump_table B % 2 ^ 32)).1) :
    (SDL_InitDynamicAPILocked B ld s).jump_table
      = (e SDL_DYNAPI_VERSION s.jump_table (sizeof_jump_table B % 2 ^ 32)).2 ∧
    (SDL_InitDynamicAPILocked B ld s).trace
      = s.trace ++ [Event.init_locked, Event.get_sdlapi_entry a "SDL_DYNAPI_entry",
          Event.get_sdlapi_entry b "SDL_DYNAPI_entry",
          Event.entry SDL_DYNAPI_VERSION (sizeof_jump_table B % 2 ^ 32)] ∧
    (SDL_InitDynamicAPILocked B ld s).trace.filter Event.is_warn
      = s.trace.filter Event.is_warn := by
  have hz : ∀ x ∈ a ++ COMMA :: b, x ≠ NUL := by
    intro x hx
    rcases List.mem_append.mp hx with h | h
    · exact (ha x h).2
    · rcases List.mem_cons.mp h with rfl | h
      · decide
      · exact (hb x h).2
  have hc : candidates (a ++ COMMA :: b) = [a, b] := by
    rw [candidates_cons a b (fun x hx => (ha x hx).1),
      candidates_single b hne (fun x hx => (hb x hx).1)]
  have hfr : first_resolved ld [a, b] = some e := by
    simp [first_resolved, List.findSome?_cons, hmissing, hvalid]
  have htr : tried ld [a, b] = [a, b] := by
    simp [tried, hmissing, hvalid]
  have henv' : s.environ = some ((a ++ COMMA :: b) ++ [NUL]) := by
    rw [henv]
  have hspec := SDL_InitDynamicAPILocked_spec B ld s (a ++ COMMA :: b) henv' hz
  rw [hc, hfr, htr] at hspec
  simp only [] at hspec
  rw [if_neg (by omega)] at hspec
  rw [hspec]
  refine ⟨rfl, by simp, ?_⟩
  simp [List.filter_append, List.filter_cons, Event.is_warn]

theorem fallback_second_candidate_witness :
    (initial_state example_build (some ([99] ++ COMMA :: [98] ++ [NUL]))).environ
      = some ([99] ++ COMMA :: [98] ++ [NUL]) ∧
    example_loader [99] "SDL_DYNAPI_entry" = none ∧
    example_loader [98] "SDL_DYNAPI_entry" = some entry_good ∧
    (SDL_InitDynamicAPILocked example_build example_loader
        (initial_state example_build (some ([99] ++ COMMA :: [98] ++ [NUL])))).trace.filter
        Event.is_warn
      = (initial_state example_build (some ([99] ++ COMMA :: [98] ++ [NUL]))).trace.filter
        Event.is_warn :=
  ⟨rfl, rfl, rfl,
   (fallback_second_candidate example_build example_loader
      (initial_state example_build (some ([99] ++ COMMA :: [98] ++ [NUL]))) [99] [98]
      entry_good rfl (by decide) (by decide) (by decide) rfl rfl (by decide)).2.2⟩

/-- C10 (override failures are recoverable): for every environment value
and every behaviour of the loader and of a resolved entry point, when no
candidate's entry point is resolved (none loads, or the symbol is not
found) or the resolved entry point returns a negative value, whatever it
wrote into the table first, `SDL_InitDynamicAPILocked` does not terminate
the process and ends with every slot of the jump table holding the built-in
`fn##_REAL`.  (`hwf`: the address of every `fn##_REAL` is a value of the
pointer type.) -/
theorem override_failure_recoverable (B : Build) (ld : Loader) (s : State)
    (hwf : ∀ i, i < B.nprocs → B.REAL i < 256 ^ B.ptrsize)
    (hlive : s.exited = none)
    (hfail : (find_entry ld s).1 = none ∨
      ∃ e, (find_entry ld s).1 = some e ∧
        (e SDL_DYNAPI_VERSION s.jump_table (sizeof_jump_table B % 2 ^ 32)).1 < 0) :
    (SDL_InitDynamicAPILocked B ld s).exited = none ∧
    (∀ code, Event.SDL_ExitProcess code ∉ (SDL_InitDynamicAPILocked B ld s).trace ∨
      Event.SDL_ExitProcess code ∈ s.trace) ∧
    ∀ i, i < B.nprocs → slot B (SDL_InitDynamicAPILocked B ld s).jump_table i = B.REAL i := by
  refine ⟨?_, ?_, ?_⟩
  · rw [(SDL_InitDynamicAPILocked_fields B ld s).1, hlive]
  · intro code
    by_cases hin : Event.SDL_ExitProcess code ∈ s.trace
    · exact Or.inr hin
    · left
      have hf := find_entry_filter ld { s with trace := s.trace ++ [Event.init_locked] }
        (fun ev => decide (ev = Event.SDL_ExitProcess code)) (fun _ => by simp) (by simp)
      intro hmem
      have hfilt : Event.SDL_ExitProcess code ∈
          (SDL_InitDynamicAPILocked B ld s).trace.filter
            (fun ev => decide (ev = Event.SDL_ExitProcess code)) :=
        List.mem_filter.mpr ⟨hmem, by simp⟩
      rw [SDL_InitDynamicAPILocked_eq] at hfilt
      have hs0 : (s.trace ++ [Event.init_locked]).filter
          (fun ev => decide (ev = Event.SDL_ExitProcess code))
          = s.trace.filter (fun ev => decide (ev = Event.SDL_ExitProcess code)) := by
        simp [List.filter_append, List.filter_cons]
      simp only [hs0] at hf
      have hback : ∀ l : List Event,
          (∀ ev ∈ l, ev ≠ Event.SDL_ExitProcess code) →
          Event.SDL_ExitProcess code ∈
            ((find_entry ld { s with trace := s.trace ++ [Event.init_locked] }).2.trace ++ l).filter
              (fun ev => decide (ev = Event.SDL_ExitProcess code)) → False := by
        intro l hl hm
        rw [List.filter_append, hf, List.mem_append] at hm
        rcases hm with hm | hm
        · exact hin (List.mem_filter.mp hm).1
        · exact hl _ (List.mem_filter.mp hm).1 rfl
      split at hfilt
      · exact hback _ (by simp) hfilt
      · split at hfilt
        · exact hback _ (by simp) hfilt
        · exact hback _ (by simp) hfilt
  · intro i hi
    rw [SDL_InitDynamicAPILocked_jump_table]
    rcases hfail with hnone | ⟨e, hsome, hneg⟩
    · rw [hnone]
      exact slot_populate B _ hwf i hi
    · rw [hsome]
      simp only []
      rw [if_pos hneg]
      exact slot_populate B _ hwf i hi

theorem override_failure_recoverable_witness :
    (∀ i, i < example_build.nprocs → example_build.REAL i < 256 ^ example_build.ptrsize) ∧
    (initial_state example_build (some [97, 44, 98, 0])).exited = none ∧
    (∃ e, (find_entry example_loader (initial_state example_build (some [97, 44, 98, 0]))).1
        = some e ∧
      (e SDL_DYNAPI_VERSION (initial_state example_build (some [97, 44, 98, 0])).jump_table
        (sizeof_jump_table example_build % 2 ^ 32)).1 < 0) ∧
    (SDL_InitDynamicAPILocked example_build example_loader
      (initial_state example_build (some [97, 44, 98, 0]))).exited = none ∧
    ∀ i, i < example_build.nprocs →
      slot example_build (SDL_InitDynamicAPILocked example_build example_loader
        (initial_state example_build (some [97, 44, 98, 0]))).jump_table i
        = example_build.REAL i :=
  ⟨by decide, rfl, ⟨entry_bad, rfl, by decide⟩,
   (override_failure_recoverable example_build example_loader
      (initial_state example_build (some [97, 44, 98, 0])) (by decide) rfl
      (Or.inr ⟨entry_bad, rfl, by decide⟩)).1,
   (override_failure_recoverable example_build example_loader
      (initial_state example_build (some [97, 44, 98, 0])) (by decide) rfl
      (Or.inr ⟨entry_bad, rfl, by decide⟩)).2.2⟩


/-! ### The candidate scan on any string -/

theorem set_restore (buf : List Nat) (p : Nat) :
    (buf.set p NUL).set p (rd buf p) = buf := by
  induction buf generalizing p with
  | nil => simp
  | cons a t ih =>
    cases p with
    | zero => simp [rd]
    | succ p =>
      have := ih p
      simp only [rd, List.set_set, List.getD_eq_getElem?_getD] at this
      simp [rd, this]

theorem scan_step_buf (ld : Loader) (st : Scan) : (scan_step ld st).buf = st.buf := by
  unfold scan_step
  exact set_restore st.buf _

theorem scan_loop_buf (ld : Loader) (fuel : Nat) (st : Scan) :
    (scan_loop ld fuel st).buf = st.buf := by
  induction fuel generalizing st with
  | zero => rfl
  | succ n ih =>
    unfold scan_loop
    split
    · rw [ih, scan_step_buf]
    · rfl

theorem rd_of_length_le (buf : List Nat) (p : Nat) (h : buf.length ≤ p) : rd buf p = NUL := by
  simp [rd, List.getD_eq_getElem?_getD, List.getElem?_eq_none h]

theorem find_sep_spec (buf : List Nat) :
    ∀ (l : List Nat) (q : Nat), buf.drop q = l →
      q ≤ find_sep l q ∧ (rd buf (find_sep l q) = COMMA ∨ rd buf (find_sep l q) = NUL) := by
  intro l
  induction l with
  | nil =>
    intro q h
    refine ⟨le_refl _, Or.inr ?_⟩
    exact rd_of_length_le buf q (List.drop_eq_nil_iff.mp h)
  | cons ch rest ih =>
    intro q h
    have hq : q < buf.length := by
      by_contra hge
      rw [List.drop_eq_nil_iff.mpr (by omega)] at h
      exact List.noConfusion h
    have hd : ch :: rest = buf[q] :: buf.drop (q + 1) := by
      rw [← h]
      exact List.drop_eq_getElem_cons hq
    have hch : rd buf q = ch := by
      simp only [rd, List.getD_eq_getElem?_getD, List.getElem?_eq_getElem hq, Option.getD_some]
      exact (List.cons.inj hd).1.symm
    have hrest : buf.drop (q + 1) = rest := (List.cons.inj hd).2.symm
    unfold find_sep
    split
    · rename_i hsep
      exact ⟨le_refl _, by rw [hch]; exact hsep⟩
    · obtain ⟨h1, h2⟩ := ih (q + 1) hrest
      exact ⟨by omega, h2⟩

theorem scan_continues_iff (st : Scan) :
    scan_continues st = true ↔ rd st.buf st.libname ≠ NUL ∧ st.entry.isNone = true := by
  simp [scan_continues]

/-- The candidate scan ends: once the passes allowed are at least the bytes
from `libname` to the end of the string, the loop condition is false. -/
theorem scan_loop_done (ld : Loader) :
    ∀ (fuel : Nat) (st : Scan), st.buf.length - st.libname ≤ fuel →
      scan_continues (scan_loop ld fuel st) = false := by
  intro fuel
  induction fuel with
  | zero =>
    intro st h
    have : rd st.buf st.libname = NUL := rd_of_length_le _ _ (by omega)
    simp [scan_loop, scan_continues, this]
  | succ n ih =>
    intro st h
    unfold scan_loop
    split
    · rename_i hc
      have hlt : st.libname < st.buf.length := by
        by_contra hge
        exact hc.1 (rd_of_length_le _ _ (by omega))
      obtain ⟨hle, _⟩ := find_sep_spec st.buf _ st.libname rfl
      by_cases hch : rd st.buf (find_sep (st.buf.drop st.libname) st.libname) = NUL
      · -- the pass ended at the terminator
        have hstop : rd (scan_step ld st).buf (scan_step ld st).libname = NUL := by
          rw [scan_step_buf]
          simp only [scan_step, hch, if_true]
        rw [scan_loop_stop ld n _ (Or.inl hstop)]
        simp [scan_continues, hstop]
      · apply ih
        rw [scan_step_buf]
        simp only [scan_step, hch, if_false]
        omega
    · rename_i hc
      have : ¬ (scan_continues st = true) := fun h' => hc ((scan_continues_iff st).mp h')
      simpa using this

theorem scan_loop_succ (ld : Loader) (n : Nat) (st : Scan) :
    scan_loop ld (n + 1) st =
      if rd st.buf st.libname ≠ NUL ∧ st.entry.isNone then scan_loop ld n (scan_step ld st)
      else st := rfl

theorem stop_of_not_continues (st : Scan)
    (hc : ¬ (rd st.buf st.libname ≠ NUL ∧ st.entry.isNone = true)) :
    rd st.buf st.libname = NUL ∨ st.entry.isSome = true := by
  by_cases h1 : rd st.buf st.libname = NUL
  · exact Or.inl h1
  · right
    cases he : st.entry with
    | none => exact absurd ⟨h1, by simp [he]⟩ hc
    | some e => rfl

theorem scan_loop_add (ld : Loader) (f k : Nat) (st : Scan) :
    scan_loop ld (f + k) st = scan_loop ld k (scan_loop ld f st) := by
  induction f generalizing st with
  | zero => simp [scan_loop]
  | succ n ih =>
    rw [Nat.add_right_comm, scan_loop_succ ld (n + k), scan_loop_succ ld n]
    by_cases hc : rd st.buf st.libname ≠ NUL ∧ st.entry.isNone = true
    · rw [if_pos hc, if_pos hc]
      exact ih _
    · rw [if_neg hc, if_neg hc, scan_loop_stop ld k st (stop_of_not_continues st hc)]

/-- More passes than the length of the string change nothing. -/
theorem scan_loop_fuel (ld : Loader) (buf : List Nat) (fuel : Nat) (h : buf.length ≤ fuel) :
    scan_loop ld fuel { buf := buf, libname := 0, entry := none, calls := [] } = scan ld buf := by
  obtain ⟨k, rfl⟩ : ∃ k, fuel = buf.length + k := ⟨fuel - buf.length, by omega⟩
  rw [scan_loop_add]
  have hdone := scan_loop_done ld buf.length
    { buf := buf, libname := 0, entry := none, calls := [] } (by simp)
  have hc : ¬ (scan_continues (scan ld buf) = true) := by
    unfold scan
    rw [hdone]
    simp
  rw [scan_continues_iff] at hc
  exact scan_loop_stop ld k (scan ld buf) (stop_of_not_continues _ hc)

theorem tried_eq_take (ld : Loader) (cs : List (List Nat)) :
    tried ld cs = cs.take (cs.findIdx (fun c => (ld c "SDL_DYNAPI_entry").isSome) + 1) := by
  induction cs with
  | nil => rfl
  | cons c t ih =>
    unfold tried
    rw [List.findIdx_cons]
    cases h : (ld c "SDL_DYNAPI_entry").isSome
    · simp [ih]
    · simp

theorem SDL_InitDynamicAPILocked_environ (B : Build) (ld : Loader) (s : State) :
    (SDL_InitDynamicAPILocked B ld s).environ = s.environ := by
  have hfe : (find_entry ld { s with trace := s.trace ++ [Event.init_locked] }).2.environ
      = s.environ := by
    rw [find_entry_eq]
    cases henv : s.environ with
    | none => simp [henv]
    | some buf =>
      simp only [henv]
      unfold scan
      rw [scan_loop_buf]
  rw [SDL_InitDynamicAPILocked_eq]
  split
  · exact hfe
  · split <;> exact hfe

/-! ### The environment variable, the scan and the diagnostics -/

/-- C11 (unset or empty override variable) fails as stated: when
`SDL3_DYNAMIC_API` is set to the empty string, `libname` is not `NULL` and
no entry point is resolved, so `SDL_InitDynamicAPILocked` does not go
straight to `initialize_jumptable`: it calls `dynapi_warn` (line 545)
first. -/
theorem unset_or_empty_variable_counterexample :
    (initial_state example_build (some [NUL])).environ = some [NUL] ∧
    (SDL_InitDynamicAPILocked example_build example_loader
        (initial_state example_build (some [NUL]))).trace
      = [Event.init_locked, Event.dynapi_warn MSG_LOAD,
         Event.initialize_jumptable SDL_DYNAPI_VERSION 4] ∧
    ((SDL_InitDynamicAPILocked example_build example_loader
        (initial_state example_build (some [NUL]))).trace.filter Event.is_warn).length = 1 := by
  decide

/-- C11 (unset or empty override variable), amended: when `SDL3_DYNAMIC_API`
is unset or is the empty string, `SDL_InitDynamicAPILocked` makes no call to
`get_sdlapi_entry`, calls no entry point, and populates the table with the
built-in implementations by
`initialize_jumptable(SDL_DYNAPI_VERSION, &jump_table, sizeof(jump_table))`;
when the variable is unset that is the only call it makes, and when it is
the empty string the `dynapi_warn` of line 545 is called once before it.
(`hwf`: the address of every `fn##_REAL` is a value of the pointer type.) -/
theorem unset_or_empty_variable (B : Build) (ld : Loader) (s : State)
    (hwf : ∀ i, i < B.nprocs → B.REAL i < 256 ^ B.ptrsize)
    (henv : s.environ = none ∨ s.environ = some [NUL]) :
    (find_entry ld s).1 = none ∧
    (SDL_InitDynamicAPILocked B ld s).trace.filter Event.is_get_sdlapi_entry
      = s.trace.filter Event.is_get_sdlapi_entry ∧
    (SDL_InitDynamicAPILocked B ld s).trace
      = s.trace ++ [Event.init_locked] ++
        (match s.environ with
         | none => []
         | some _ => [Event.dynapi_warn MSG_LOAD]) ++
        [Event.initialize_jumptable SDL_DYNAPI_VERSION (sizeof_jump_table B % 2 ^ 32)] ∧
    ∀ i, i < B.nprocs → slot B (SDL_InitDynamicAPILocked B ld s).jump_table i = B.REAL i := by
  have hfe : (find_entry ld s).1 = none := by
    rw [find_entry_eq]
    rcases henv with h | h
    · rw [h]
    · rw [h]
      rfl
  have htrace : (SDL_InitDynamicAPILocked B ld s).trace
      = s.trace ++ [Event.init_locked] ++
        (match s.environ with
         | none => []
         | some _ => [Event.dynapi_warn MSG_LOAD]) ++
        [Event.initialize_jumptable SDL_DYNAPI_VERSION (sizeof_jump_table B % 2 ^ 32)] := by
    rcases henv with h | h
    · rw [SDL_InitDynamicAPILocked_eq]
      simp only [find_entry_eq, h]
      simp
    · have hspec := SDL_InitDynamicAPILocked_spec B ld s [] (by rw [h]; rfl) (by simp)
      rw [candidates_nil] at hspec
      rw [hspec, h]
      simp [first_resolved, tried]
  refine ⟨hfe, ?_, htrace, ?_⟩
  · rw [htrace]
    rcases henv with h | h <;> rw [h] <;>
      simp [List.filter_append, List.filter_cons, Event.is_get_sdlapi_entry]
  · intro i hi
    rw [SDL_InitDynamicAPILocked_jump_table, hfe]
    exact slot_populate B _ hwf i hi

theorem unset_or_empty_variable_witness :
    (∀ i, i < example_build.nprocs → example_build.REAL i < 256 ^ example_build.ptrsize) ∧
    (initial_state example_build none).environ = none ∧
    (SDL_InitDynamicAPILocked example_build example_loader
        (initial_state example_build none)).trace
      = [Event.init_locked, Event.initialize_jumptable SDL_DYNAPI_VERSION 4] ∧
    ∀ i, i < example_build.nprocs →
      slot example_build (SDL_InitDynamicAPILocked example_build example_loader
        (initial_state example_build none)).jump_table i = example_build.REAL i :=
  ⟨by decide, rfl,
   (unset_or_empty_variable example_build example_loader
      (initial_state example_build none) (by decide) (Or.inl rfl)).2.2.1,
   (unset_or_empty_variable example_build example_loader
      (initial_state example_build none) (by decide) (Or.inl rfl)).2.2.2⟩

/-- C16 (the fatal exit is unreachable): the call
`initialize_jumptable(SDL_DYNAPI_VERSION, &jump_table, sizeof(jump_table))`
made by `SDL_InitDynamicAPILocked` passes both gates and always returns 0,
so for every environment value and every behaviour of the loader and of an
override the branch that warns and calls `SDL_ExitProcess(86)` is never
taken: the process is not ended, and neither the warning of line 563 nor
`SDL_ExitProcess` is called. -/
theorem fatal_exit_unreachable (B : Build) (ld : Loader) (s : State) :
    (∀ jt, (initialize_jumptable B jt SDL_DYNAPI_VERSION Table.internal
      (sizeof_jump_table B % 2 ^ 32)).1 = 0) ∧
    (SDL_InitDynamicAPILocked B ld s).exited = s.exited ∧
    (SDL_InitDynamicAPILocked B ld s).trace.filter Event.is_fatal
      = s.trace.filter Event.is_fatal := by
  refine ⟨fun jt => by rw [initialize_jumptable_internal], ?_, ?_⟩
  · exact (SDL_InitDynamicAPILocked_fields B ld s).1
  · have hf := find_entry_filter ld { s with trace := s.trace ++ [Event.init_locked] }
      Event.is_fatal (fun _ => rfl) (by decide)
    have hs0 : (s.trace ++ [Event.init_locked]).filter Event.is_fatal
        = s.trace.filter Event.is_fatal := by
      simp [List.filter_append, List.filter_cons, Event.is_fatal]
    simp only [hs0] at hf
    have hover : MSG_OVERRIDE ≠ MSG_INTERNAL := by decide
    rw [SDL_InitDynamicAPILocked_eq]
    split
    · simp [List.filter_append, hf, List.filter_cons, Event.is_fatal]
    · split
      · simp [List.filter_append, hf, List.filter_cons, Event.is_fatal, hover]
      · simp [List.filter_append, hf, List.filter_cons, Event.is_fatal]

/-- C17 (candidate scan): for every NUL-terminated value of the override
variable the scanning loop terminates (after at most as many passes as the
string has bytes its condition is false, and allowing more passes changes
nothing), and the names passed to `get_sdlapi_entry` are, in order, the
segments of the value split at each `,`, an empty segment after a final
trailing comma not being tried, the symbol requested always being
`SDL_DYNAPI_entry`, and the scan stops immediately after the first name for
which `get_sdlapi_entry` returns non-null. -/
theorem candidate_scan (B : Build) (ld : Loader) (s : State) (value : List Nat)
    (henv : s.environ = some (value ++ [NUL])) (hz : ∀ x ∈ value, x ≠ NUL) :
    scan_continues (scan ld (value ++ [NUL])) = false ∧
    (∀ fuel, (value ++ [NUL]).length ≤ fuel →
      scan_loop ld fuel { buf := value ++ [NUL], libname := 0, entry := none, calls := [] }
        = scan ld (value ++ [NUL])) ∧
    candidates value =
      (if (value.splitOn COMMA).getLast? = some [] then (value.splitOn COMMA).dropLast
       else value.splitOn COMMA) ∧
    (scan ld (value ++ [NUL])).calls =
      (candidates value).take
        ((candidates value).findIdx (fun c => (ld c "SDL_DYNAPI_entry").isSome) + 1) ∧
    (SDL_InitDynamicAPILocked B ld s).trace.filter Event.is_get_sdlapi_entry
      = s.trace.filter Event.is_get_sdlapi_entry ++
        ((candidates value).take
          ((candidates value).findIdx (fun c => (ld c "SDL_DYNAPI_entry").isSome) + 1)).map
          (fun n => Event.get_sdlapi_entry n "SDL_DYNAPI_entry") := by
  refine ⟨?_, fun fuel h => scan_loop_fuel ld _ fuel h, rfl, ?_, ?_⟩
  · exact scan_loop_done ld _ _ (by simp)
  · rw [(scan_spec ld value hz).2.2, tried_eq_take]
  · have hmap : ∀ names : List (List Nat),
        (names.map (fun n => Event.get_sdlapi_entry n "SDL_DYNAPI_entry")).filter
          Event.is_get_sdlapi_entry
        = names.map (fun n => Event.get_sdlapi_entry n "SDL_DYNAPI_entry") := by
      intro names
      induction names with
      | nil => rfl
      | cons a t ih => simp [List.filter_cons, Event.is_get_sdlapi_entry, ih]
    rw [SDL_InitDynamicAPILocked_spec B ld s value henv hz, ← tried_eq_take]
    cases first_resolved ld (candidates value) with
    | none =>
      simp [List.filter_append, hmap, List.filter_cons, Event.is_get_sdlapi_entry]
    | some e =>
      simp only []
      split <;>
        simp [List.filter_append, hmap, List.filter_cons, Event.is_get_sdlapi_entry]

theorem candidate_scan_witness :
    (initial_state example_build (some ([44, 99, 44, 98, 44] ++ [NUL]))).environ
      = some ([44, 99, 44, 98, 44] ++ [NUL]) ∧
    (∀ x ∈ [44, 99, 44, 98, 44], x ≠ NUL) ∧
    candidates [44, 99, 44, 98, 44] = [[], [99], [98]] ∧
    (scan example_loader ([44, 99, 44, 98, 44] ++ [NUL])).calls =
      (candidates [44, 99, 44, 98, 44]).take
        ((candidates [44, 99, 44, 98, 44]).findIdx
          (fun c => (example_loader c "SDL_DYNAPI_entry").isSome) + 1) :=
  ⟨rfl, by decide, by decide,
   (candidate_scan example_build example_loader
      (initial_state example_build (some ([44, 99, 44, 98, 44] ++ [NUL])))
      [44, 99, 44, 98, 44] rfl (by decide)).2.2.2.1⟩

/-- C18 (the environment string is left unmodified): every pass of the
candidate scan puts back the byte it overwrote with NUL for the call of the
loader, so after `SDL_InitDynamicAPILocked` returns, and after
`SDL_InitDynamicAPI` returns, the string obtained from the environment is
byte for byte what it was before the call, for every value and every loader
outcome. -/
theorem environment_unmodified (B : Build) (ld : Loader) (s : State) :
    (∀ st, (scan_step ld st).buf = st.buf) ∧
    (∀ buf, (scan ld buf).buf = buf) ∧
    (SDL_InitDynamicAPILocked B ld s).environ = s.environ ∧
    (∀ s', SDL_InitDynamicAPI B ld s = some s' → s'.environ = s.environ) := by
  refine ⟨scan_step_buf ld, fun buf => scan_loop_buf ld _ _,
    SDL_InitDynamicAPILocked_environ B ld s, ?_⟩
  intro s' h
  have henv := SDL_InitDynamicAPILocked_environ B ld { s with lock := 1 }
  simp only [] at henv
  unfold SDL_InitDynamicAPI at h
  split at h
  · rw [← Option.some.inj h]
  · split at h
    · exact Option.noConfusion h
    · simp only [] at h
      split at h
      · split at h
        · rw [← Option.some.inj h, henv]
        · rw [← Option.some.inj h]
          exact henv
      · rw [← Option.some.inj h]

/-- C19 (when diagnostics are emitted, `getenv` branch): one run of
`SDL_InitDynamicAPILocked` calls `dynapi_warn` at most once, and it does so
exactly when the override variable is set (non-null, and also when it is the
empty string, for which no entry point is resolved) and either no
candidate's entry point was resolved or the resolved entry point returned a
negative value; when the variable is unset or a candidate negotiates
successfully no diagnostic is emitted, whatever earlier candidates failed
to load. -/
theorem diagnostics_emitted (B : Build) (ld : Loader) (s : State) :
    ∃ W, (SDL_InitDynamicAPILocked B ld s).trace.filter Event.is_warn
        = s.trace.filter Event.is_warn ++ W ∧
      W.length ≤ 1 ∧
      (W.length = 1 ↔
        s.environ ≠ none ∧
        ((find_entry ld s).1 = none ∨
          ∃ e, (find_entry ld s).1 = some e ∧
            (e SDL_DYNAPI_VERSION s.jump_table (sizeof_jump_table B % 2 ^ 32)).1 < 0)) ∧
      (s.environ = some [NUL] → (find_entry ld s).1 = none ∧ W.length = 1) := by
  have hcongr := find_entry_fst_congr ld { s with trace := s.trace ++ [Event.init_locked] } s rfl
  have hmap : ∀ names : List (List Nat),
      (names.map (fun n => Event.get_sdlapi_entry n "SDL_DYNAPI_entry")).filter Event.is_warn
        = [] := fun names => filter_get_sdlapi_entry Event.is_warn names (fun _ => rfl)
  rw [SDL_InitDynamicAPILocked_eq, hcongr]
  cases henv : s.environ with
  | none =>
    have hfe : (find_entry ld s).1 = none := by rw [find_entry_eq, henv]
    refine ⟨[], ?_, by simp, ?_, ?_⟩
    · rw [hfe]
      simp only [find_entry_eq, henv]
      simp [List.filter_append, List.filter_cons, Event.is_warn]
    · simp
    · intro h
      exact absurd h (by simp)
  | some buf =>
    have hempty : buf = [NUL] → (find_entry ld s).1 = none := by
      intro hb
      rw [find_entry_eq, henv, hb]
      rfl
    cases hfe : (find_entry ld s).1 with
    | none =>
      have hscan : (scan ld buf).entry = none := by
        rw [find_entry_eq, henv] at hfe
        exact hfe
      refine ⟨[Event.dynapi_warn MSG_LOAD], ?_, by simp, by simp, fun _ => ⟨rfl, rfl⟩⟩
      simp only [find_entry_eq, henv, hscan]
      simp [List.filter_append, List.filter_cons, Event.is_warn, hmap]
    | some e =>
      have hscan : (scan ld buf).entry = some e := by
        rw [find_entry_eq, henv] at hfe
        exact hfe
      have hne : buf ≠ [NUL] := by
        intro hb
        rw [hempty hb] at hfe
        exact Option.noConfusion hfe
      by_cases hneg : (e SDL_DYNAPI_VERSION s.jump_table (sizeof_jump_table B % 2 ^ 32)).1 < 0
      · refine ⟨[Event.dynapi_warn MSG_OVERRIDE], ?_, by simp, ?_, ?_⟩
        · simp only [find_entry_eq, henv, hscan, if_pos hneg]
          simp [List.filter_append, List.filter_cons, Event.is_warn, hmap]
        · simp only [List.length_singleton, true_iff]
          exact ⟨by simp, Or.inr ⟨e, rfl, hneg⟩⟩
        · intro h
          exact absurd (Option.some.inj h) hne
      · refine ⟨[], ?_, by simp, ?_, ?_⟩
        · simp only [find_entry_eq, henv, hscan, if_neg hneg]
          simp [List.filter_append, List.filter_cons, Event.is_warn, hmap]
        · constructor
          · intro h
            exact absurd h (by simp)
          · rintro ⟨_, h | ⟨e', he', hneg'⟩⟩
            · exact Option.noConfusion h
            · rw [← Option.some.inj he'] at hneg'
              exact absurd hneg' hneg
        · intro h
          exact absurd (Option.some.inj h) hne

/-! ### The stubs -/

theorem stub_at_none (B : Build) (p : Nat) (h : ∀ j, j < B.nprocs → B.DEFAULT j ≠ p) :
    stub_at B p = none := by
  unfold stub_at
  rw [List.find?_eq_none]
  intro j hj
  simpa using h j (List.mem_range.mp hj)

/-- An indirect call through a slot that holds the address of a function
outside this file is that one call. -/
theorem jump_outside {α β : Type} (B : Build) (ld : Loader) (impl : Nat → α → β)
    (fuel i : Nat) (args : α) (s : State) (h : stub_at B (slot B s.jump_table i) = none) :
    jump B ld impl (fuel + 1) i args s =
      some (impl (slot B s.jump_table i) args,
        { s with trace := s.trace ++ [Event.call i (slot B s.jump_table i)] }) := by
  simp only [jump, h]

/-- Once initialization has completed no stub changes the jump table. -/
theorem jump_initialized {α β : Type} (B : Build) (ld : Loader) (impl : Nat → α → β) :
    ∀ (fuel i : Nat) (args : α) (s : State) (r : β) (s' : State),
      s.already_initialized = true → s.lock = 0 → s.exited = none →
      jump B ld impl fuel i args s = some (r, s') →
      s'.jump_table = s.jump_table ∧ s'.already_initialized = true ∧ s'.lock = 0 ∧
      s'.exited = none ∧ locked_runs s' = locked_runs s := by
  intro fuel
  induction fuel with
  | zero =>
    intro i args s r s' _ _ _ h
    exact Option.noConfusion h
  | succ n ih =>
    intro i args s r s' h1 h2 h3 h
    have hruns : locked_runs { s with
        trace := s.trace ++ [Event.call i (slot B s.jump_table i)] } = locked_runs s := by
      simp [locked_runs, List.filter_append, List.filter_cons, Event.is_init_locked]
    simp only [jump] at h
    split at h
    · have h' := Option.some.inj h
      rw [← (Prod.mk.inj h').2]
      exact ⟨rfl, h1, h2, h3, hruns⟩
    · rename_i j _
      unfold stub_body at h
      have hl := SDL_InitDynamicAPI_later B ld
        { s with trace := s.trace ++ [Event.call i (slot B s.jump_table i)] } h1 h2 h3
      simp only [] at hl
      rw [hl] at h
      simp only [] at h
      split at h
      · exact Option.noConfusion h
      · obtain ⟨a, b, c, d, e⟩ := ih j args
          { s with trace := s.trace ++ [Event.call i (slot B s.jump_table i)] } r s' h1 h2 h3 h
        exact ⟨a, b, c, d, by rw [e, hruns]⟩

/-- C15 (bootstrap stub equals the real call): for every entry `i`, its
arguments and every depth allowed, when the table is populated by the
built-in path a call of the bootstrap stub `fn##_DEFAULT(args)` runs
`SDL_InitDynamicAPI` and then makes exactly one call through the populated
slot, returning `fn##_REAL(args)`; the slot it calls through holds
`fn##_REAL` and no longer `fn##_DEFAULT`, so the stub does not re-enter
itself; and every later call of the public forwarding stub `fn(args)` is
the single indirect call `jump_table.fn(args)`: it returns
`fn##_REAL(args)` and runs no initialization.  (`hwf`, `hstub`: the address
of every `fn##_REAL` is a value of the pointer type, and `fn##_REAL` is not
one of the bootstrap stubs.) -/
theorem bootstrap_stub_real_call {α β : Type} (B : Build) (ld : Loader) (impl : Nat → α → β)
    (s : State) (i : Nat) (args : α) (fuel : Nat)
    (hi : i < B.nprocs)
    (h1 : s.already_initialized = false) (h2 : s.lock = 0) (h3 : s.exited = none)
    (hwf : ∀ k, k < B.nprocs → B.REAL k < 256 ^ B.ptrsize)
    (hstub : ∀ j, j < B.nprocs → B.DEFAULT j ≠ B.REAL i)
    (hbuiltin : (find_entry ld s).1 = none ∨
      ∃ e, (find_entry ld s).1 = some e ∧
        (e SDL_DYNAPI_VERSION s.jump_table (sizeof_jump_table B % 2 ^ 32)).1 < 0) :
    ∃ s1, SDL_InitDynamicAPI B ld s = some s1 ∧
      slot B s1.jump_table i = B.REAL i ∧
      slot B s1.jump_table i ≠ B.DEFAULT i ∧
      DEFAULT_stub B ld impl (fuel + 1) i args s =
        some (impl (B.REAL i) args,
          { s1 with trace := s1.trace ++ [Event.call i (B.REAL i)] }) ∧
      ∀ (t : State) (fuel' : Nat) (args' : α), t.jump_table = s1.jump_table →
        forwarding_stub B ld impl (fuel' + 1) i args' t =
          some (impl (B.REAL i) args',
            { t with trace := t.trace ++ [Event.call i (B.REAL i)] }) := by
  have hfirst := SDL_InitDynamicAPI_first B ld s h1 h2 h3
  have hx := (SDL_InitDynamicAPILocked_fields B ld { s with lock := 1 }).1
  have hslot : slot B (SDL_InitDynamicAPILocked B ld { s with lock := 1 }).jump_table i
      = B.REAL i := by
    rw [SDL_InitDynamicAPILocked_jump_table,
      find_entry_fst_congr ld { s with lock := 1 } s rfl]
    rcases hbuiltin with hnone | ⟨e, hsome, hneg⟩
    · rw [hnone]
      exact slot_populate B _ hwf i hi
    · rw [hsome]
      simp only []
      rw [if_pos hneg]
      exact slot_populate B _ hwf i hi
  have hnostub : stub_at B (B.REAL i) = none := stub_at_none B _ hstub
  refine ⟨_, hfirst, hslot, ?_, ?_, ?_⟩
  · show slot B (SDL_InitDynamicAPILocked B ld { s with lock := 1 }).jump_table i ≠ B.DEFAULT i
    rw [hslot]
    exact fun h => hstub i hi h.symm
  · unfold DEFAULT_stub stub_body
    rw [hfirst]
    simp only []
    have hx' : (SDL_InitDynamicAPILocked B ld { s with lock := 1 }).exited = none := by
      rw [hx]
      exact h3
    simp only [hx']
    rw [jump_outside B ld impl fuel i args _ (by
      show stub_at B (slot B (SDL_InitDynamicAPILocked B ld { s with lock := 1 }).jump_table i)
        = none
      rw [hslot]
      exact hnostub)]
    show some (impl (slot B (SDL_InitDynamicAPILocked B ld { s with lock := 1 }).jump_table i)
      args, _) = _
    simp only [hslot]
  · intro t fuel' args' ht
    have hslot' : slot B t.jump_table i = B.REAL i := by
      rw [ht]
      exact hslot
    unfold forwarding_stub
    rw [jump_outside B ld impl fuel' i args' t (by rw [hslot']; exact hnostub), hslot']

theorem bootstrap_stub_real_call_witness :
    (1 : Nat) < example_build.nprocs ∧
    (∀ j, j < example_build.nprocs → example_build.DEFAULT j ≠ example_build.REAL 1) ∧
    (find_entry example_loader (initial_state example_build none)).1 = none ∧
    ∃ s1, SDL_InitDynamicAPI example_build example_loader (initial_state example_build none)
        = some s1 ∧
      slot example_build s1.jump_table 1 = example_build.REAL 1 ∧
      slot example_build s1.jump_table 1 ≠ example_build.DEFAULT 1 ∧
      DEFAULT_stub example_build example_loader example_impl (0 + 1) 1 7
          (initial_state example_build none) =
        some (example_impl (example_build.REAL 1) 7,
          { s1 with trace := s1.trace ++ [Event.call 1 (example_build.REAL 1)] }) ∧
      ∀ (t : State) (fuel' : Nat) (args' : Nat), t.jump_table = s1.jump_table →
        forwarding_stub example_build example_loader example_impl (fuel' + 1) 1 args' t =
          some (example_impl (example_build.REAL 1) args',
            { t with trace := t.trace ++ [Event.call 1 (example_build.REAL 1)] }) :=
  ⟨by decide, by decide, rfl,
   bootstrap_stub_real_call example_build example_loader example_impl
     (initial_state example_build none) 1 7 0 (by decide) rfl rfl rfl (by decide) (by decide)
     (Or.inl rfl)⟩

/-- C13 (read-only after initialization) fails as stated: after
`SDL_InitDynamicAPI` has completed with the table of the override module
`b`, whose slot 0 holds the override's pointer `0x0201`, a call of the
exported `SDL_DYNAPI_entry` that passes both gates assigns `fn##_REAL` to
every slot of the internal table again, so slot 0 changes. -/
theorem read_only_counterexample :
    (SDL_InitDynamicAPI example_build example_loader
        (initial_state example_build (some [98, 0]))).map
      (fun s =>
        (s.already_initialized, slot example_build s.jump_table 0,
         (SDL_DYNAPI_entry example_build s.jump_table SDL_DYNAPI_VERSION
            (Table.external example_buffer) 4).1,
         slot example_build
           (SDL_DYNAPI_entry example_build s.jump_table SDL_DYNAPI_VERSION
              (Table.external example_buffer) 4).2.1 0))
      = some (true, 513, 0, 4096) := by
  decide

/-- C13 (read-only after initialization), amended: once `SDL_InitDynamicAPI`
has completed, further `SDL_InitDynamicAPI` calls change nothing, no
bootstrap or forwarding stub changes the jump table or runs the
initialization again, and a call of the exported `SDL_DYNAPI_entry` that is
rejected by a gate leaves the table as it was; a call of `SDL_DYNAPI_entry`
that passes both gates assigns `fn##_REAL` to every slot again, which
leaves every slot of a table populated by the built-in path as it was.
(`hwf`: the address of every `fn##_REAL` is a value of the pointer type.) -/
theorem read_only_after_init {α β : Type} (B : Build) (ld : Loader) (impl : Nat → α → β)
    (s : State)
    (h1 : s.already_initialized = true) (h2 : s.lock = 0) (h3 : s.exited = none)
    (hwf : ∀ k, k < B.nprocs → B.REAL k < 256 ^ B.ptrsize) :
    (∀ n, init_calls B ld n s = some s) ∧
    (∀ fuel i args r s', forwarding_stub B ld impl fuel i args s = some (r, s') →
      s'.jump_table = s.jump_table ∧ locked_runs s' = locked_runs s) ∧
    (∀ fuel j args r s', DEFAULT_stub B ld impl fuel j args s = some (r, s') →
      s'.jump_table = s.jump_table ∧ locked_runs s' = locked_runs s) ∧
    (∀ apiver table tablesize,
      (SDL_DYNAPI_entry B s.jump_table apiver table tablesize).1 ≠ 0 →
      (SDL_DYNAPI_entry B s.jump_table apiver table tablesize).2.1 = s.jump_table) ∧
    (∀ apiver table tablesize,
      (SDL_DYNAPI_entry B s.jump_table apiver table tablesize).1 = 0 →
      ∀ i, i < B.nprocs →
        slot B (SDL_DYNAPI_entry B s.jump_table apiver table tablesize).2.1 i = B.REAL i) ∧
    ((∀ i, i < B.nprocs → slot B s.jump_table i = B.REAL i) →
      ∀ apiver table tablesize i, i < B.nprocs →
        slot B (SDL_DYNAPI_entry B s.jump_table apiver table tablesize).2.1 i
          = slot B s.jump_table i) := by
  have hentry : ∀ apiver table tablesize,
      SDL_DYNAPI_entry B s.jump_table apiver table tablesize = (-1, s.jump_table, table) ∨
      ((SDL_DYNAPI_entry B s.jump_table apiver table tablesize).1 = 0 ∧
       (SDL_DYNAPI_entry B s.jump_table apiver table tablesize).2.1 = populate B s.jump_table) := by
    intro apiver table tablesize
    unfold SDL_DYNAPI_entry
    by_cases hv : apiver = SDL_DYNAPI_VERSION
    · subst hv
      by_cases hs : tablesize ≤ sizeof_jump_table B
      · right
        rw [initialize_jumptable_ok B _ table tablesize hs]
        exact ⟨rfl, rfl⟩
      · left
        unfold initialize_jumptable
        rw [if_neg (by simp), if_pos (by omega)]
    · left
      unfold initialize_jumptable
      rw [if_pos hv]
  refine ⟨fun n => init_calls_later B ld n s h1 h2 h3, ?_, ?_, ?_, ?_, ?_⟩
  · intro fuel i args r s' h
    obtain ⟨a, _, _, _, e⟩ := jump_initialized B ld impl fuel i args s r s' h1 h2 h3 h
    exact ⟨a, e⟩
  · intro fuel j args r s' h
    unfold DEFAULT_stub stub_body at h
    rw [SDL_InitDynamicAPI_later B ld s h1 h2 h3] at h
    simp only [] at h
    split at h
    · exact Option.noConfusion h
    · obtain ⟨a, _, _, _, e⟩ := jump_initialized B ld impl fuel j args s r s' h1 h2 h3 h
      exact ⟨a, e⟩
  · intro apiver table tablesize hne
    rcases hentry apiver table tablesize with h | ⟨h, _⟩
    · rw [h]
    · exact absurd h hne
  · intro apiver table tablesize h0 i hi
    rcases hentry apiver table tablesize with h | ⟨_, h⟩
    · rw [h] at h0
      have h0' : (-1 : Int) = 0 := h0
      exact absurd h0' (by decide)
    · rw [h]
      exact slot_populate B _ hwf i hi
  · intro hreal apiver table tablesize i hi
    rcases hentry apiver table tablesize with h | ⟨_, h⟩
    · rw [h]
    · rw [h, slot_populate B _ hwf i hi, hreal i hi]

theorem read_only_after_init_witness :
    (∀ k, k < example_build.nprocs → example_build.REAL k < 256 ^ example_build.ptrsize) ∧
    ∀ n, init_calls example_build example_loader n
        { initial_state example_build none with
          jump_table := populate example_build (initial_jump_table example_build),
          already_initialized := true }
      = some { initial_state example_build none with
          jump_table := populate example_build (initial_jump_table example_build),
          already_initialized := true } :=
  ⟨by decide,
   (read_only_after_init example_build example_loader example_impl
      { initial_state example_build none with
        jump_table := populate example_build (initial_jump_table example_build),
        already_initialized := true } rfl rfl rfl (by decide)).1⟩

/-! ### The variadic wrappers -/

/-- C12 (variadic buffer fallback): in the `SDL_SetError` and
`SDL_RenderDebugTextFormat` wrappers, with `r` the value returned by the
table's `SDL_vsnprintf` on the 128-byte stack buffer: if `0 <= r < 128` the
table's `SDL_vasprintf` is never called and the stack buffer is passed on;
if `r >= 128` `SDL_vasprintf` is called exactly once and the pointer it
produced is passed to the table's `SDL_free` exactly once, as the last call
of the wrapper, also when `SDL_vasprintf` failed; the stack buffer itself
is never passed to `SDL_free`. -/
theorem variadic_buffer_fallback (F : Formatter) :
    (0 ≤ F.vsnprintf ∧ F.vsnprintf < 128 →
      SDL_SetError F = (false, [VCall.SDL_vsnprintf 128, VCall.SDL_SetError StrPtr.buf]) ∧
      SDL_RenderDebugTextFormat F =
        (F.render, [VCall.SDL_vsnprintf 128, VCall.SDL_RenderDebugTextFormat StrPtr.buf]) ∧
      (SDL_SetError F).2.count VCall.SDL_vasprintf = 0 ∧
      (SDL_RenderDebugTextFormat F).2.count VCall.SDL_vasprintf = 0) ∧
    (128 ≤ F.vsnprintf →
      (SDL_SetError F).2 =
        [VCall.SDL_vsnprintf 128, VCall.SDL_vasprintf] ++
        (if 0 ≤ F.vasprintf then [VCall.SDL_SetError F.str] else []) ++
        [VCall.SDL_free F.str] ∧
      (SDL_RenderDebugTextFormat F).2 =
        [VCall.SDL_vsnprintf 128, VCall.SDL_vasprintf] ++
        (if 0 ≤ F.vasprintf then [VCall.SDL_RenderDebugTextFormat F.str] else []) ++
        [VCall.SDL_free F.str] ∧
      (SDL_SetError F).2.count VCall.SDL_vasprintf = 1 ∧
      (SDL_RenderDebugTextFormat F).2.count VCall.SDL_vasprintf = 1 ∧
      freed (SDL_SetError F).2 = [F.str] ∧
      freed (SDL_RenderDebugTextFormat F).2 = [F.str]) ∧
    StrPtr.buf ∉ freed (SDL_SetError F).2 ∧
    StrPtr.buf ∉ freed (SDL_RenderDebugTextFormat F).2 := by
  have hstr : F.str ≠ StrPtr.buf := by
    unfold Formatter.str
    split <;> intro h <;> exact StrPtr.noConfusion h
  have hsmall : 0 ≤ F.vsnprintf ∧ F.vsnprintf < 128 →
      SDL_SetError F = (false, [VCall.SDL_vsnprintf 128, VCall.SDL_SetError StrPtr.buf]) ∧
      SDL_RenderDebugTextFormat F =
        (F.render, [VCall.SDL_vsnprintf 128, VCall.SDL_RenderDebugTextFormat StrPtr.buf]) := by
    intro ⟨h0, h1⟩
    have hc : ¬ (F.vsnprintf ≥ 0 ∧ F.vsnprintf.toNat ≥ 128) := by omega
    have hc' : ¬ 128 ≤ F.vsnprintf := by omega
    simp [SDL_SetError, SDL_RenderDebugTextFormat, hc, hc', h0]
  have hlarge : 128 ≤ F.vsnprintf →
      (SDL_SetError F).2 =
        [VCall.SDL_vsnprintf 128, VCall.SDL_vasprintf] ++
        (if 0 ≤ F.vasprintf then [VCall.SDL_SetError F.str] else []) ++
        [VCall.SDL_free F.str] ∧
      (SDL_RenderDebugTextFormat F).2 =
        [VCall.SDL_vsnprintf 128, VCall.SDL_vasprintf] ++
        (if 0 ≤ F.vasprintf then [VCall.SDL_RenderDebugTextFormat F.str] else []) ++
        [VCall.SDL_free F.str] := by
    intro h
    have hc : F.vsnprintf ≥ 0 ∧ F.vsnprintf.toNat ≥ 128 := by omega
    have h0 : 0 ≤ F.vsnprintf := by omega
    by_cases hv : 0 ≤ F.vasprintf
    · simp [SDL_SetError, SDL_RenderDebugTextFormat, hc, h, h0, hv, hstr]
    · simp [SDL_SetError, SDL_RenderDebugTextFormat, hc, h, h0, hv, hstr]
  have hneg : F.vsnprintf < 0 →
      SDL_SetError F = (false, [VCall.SDL_vsnprintf 128]) ∧
      SDL_RenderDebugTextFormat F = (false, [VCall.SDL_vsnprintf 128]) := by
    intro h
    have hc : ¬ (F.vsnprintf ≥ 0 ∧ F.vsnprintf.toNat ≥ 128) := by omega
    have h0 : ¬ 0 ≤ F.vsnprintf := by omega
    have hc' : ¬ 128 ≤ F.vsnprintf := by omega
    simp [SDL_SetError, SDL_RenderDebugTextFormat, hc, hc', h0, h]
  refine ⟨?_, ?_, ?_, ?_⟩
  · intro h
    obtain ⟨h1, h2⟩ := hsmall h
    refine ⟨h1, h2, ?_, ?_⟩
    · rw [h1]
      decide
    · rw [h2]
      simp [List.count_cons]
  · intro h
    obtain ⟨h1, h2⟩ := hlarge h
    refine ⟨h1, h2, ?_, ?_, ?_, ?_⟩
    · rw [h1]
      split <;> simp [List.count_cons]
    · rw [h2]
      split <;> simp [List.count_cons]
    · rw [h1]
      split <;> simp [freed]
    · rw [h2]
      split <;> simp [freed]
  · rcases lt_or_le F.vsnprintf 0 with h | h
    · rw [(hneg h).1]
      simp [freed]
    · rcases lt_or_le F.vsnprintf 128 with h' | h'
      · rw [(hsmall ⟨h, h'⟩).1]
        simp [freed]
      · rw [(hlarge h').1]
        split <;> simp [freed, hstr.symm]
  · rcases lt_or_le F.vsnprintf 0 with h | h
    · rw [(hneg h).2]
      simp [freed]
    · rcases lt_or_le F.vsnprintf 128 with h' | h'
      · rw [(hsmall ⟨h, h'⟩).2]
        simp [freed]
      · rw [(hlarge h').2]
        split <;> simp [freed, hstr.symm]

theorem variadic_buffer_fallback_witness :
    (128 : Int) ≤ (example_formatter).vsnprintf ∧
    freed (SDL_SetError example_formatter).2 = [StrPtr.null] ∧
    (SDL_SetError example_formatter).2.count VCall.SDL_vasprintf = 1 :=
  ⟨by decide,
   ((variadic_buffer_fallback example_formatter).2.1 (by decide)).2.2.2.2.1,
   ((variadic_buffer_fallback example_formatter).2.1 (by decide)).2.2.1⟩

end SDLDynapi
